import Mathlib

/-!
# my-app: logger adapter (`internal/log/log.go`) and configuration loader
(`internal/pkg/config/config.go`)

The two packages are thin layers over `zap`, `fmt`, `viper`, `mapstructure` and
`godotenv`.  The functions of the repository are embedded one by one under their
own names; the library calls they make are embedded from the libraries'
documented behaviour in the namespaces `fmt`, `zapcore`, `zap`, `godotenv`,
`viper` and `mapstructure`.
-/

set_option autoImplicit false

namespace MyApp

/-! ## Go values -/

/-- A Go `error`: either a plain error or one built by `fmt.Errorf` with `%w`,
which keeps the wrapped cause for `errors.Unwrap`. -/
inductive GoError where
  | base (msg : String)
  | wrap (msg : String) (cause : GoError)
  deriving DecidableEq, Repr

namespace GoError

/-- The `Error()` string. -/
def Error : GoError → String
  | base m => m
  | wrap m _ => m

/-- The result of `errors.Unwrap`. -/
def Unwrap : GoError → Option GoError
  | base _ => none
  | wrap _ c => some c

end GoError

/-- A value held in an `interface{}`.  `str` is a value of Go type `string`,
`err` a non-nil `error`, `field` a strongly typed `zap.Field`; `other` stands for
any further value, given by its `%v` rendering and whether its kind is
`reflect.String`. -/
inductive Any where
  | null
  | str (s : String)
  | int (i : Int)
  | bool (b : Bool)
  | err (e : GoError)
  | field (key : String) (value : Any)
  | other (rendering : String) (stringKind : Bool)
  deriving DecidableEq, Repr

/-- A structured-context field: a key and its value. -/
structure Field where
  key : String
  value : Any
  deriving DecidableEq, Repr

/-! ## `fmt` -/

namespace fmt

/-- The part of `fmt` that depends on Go's reflection-based printing: `%v` of one
operand, `Sprintf`, and `%q` of a string (`strconv.Quote`). -/
structure Printer where
  verbV : Any → String
  Sprintf : String → List Any → String
  Quote : String → String

/-- Whether `Sprint` treats the operand as a string
(`arg != nil && reflect.TypeOf(arg).Kind() == reflect.String`). -/
def isString : Any → Bool
  | Any.str _ => true
  | Any.other _ k => k
  | _ => false

/-- The loop of `doPrintln`: a space before every operand but the first. -/
def printlnLoop (p : Printer) : Nat → String → List Any → String
  | _, buf, [] => buf
  | argNum, buf, arg :: rest =>
    let buf1 := if argNum > 0 then buf.push ' ' else buf
    printlnLoop p (argNum + 1) (buf1 ++ p.verbV arg) rest

/-- The function `fmt.Sprintln`: the operands in `%v` form, always separated by a
space, followed by a newline. -/
def Sprintln (p : Printer) (a : List Any) : String :=
  (printlnLoop p 0 "" a).push '\n'

/-- The loop of `doPrint`: a space between two operands when neither is a
string. -/
def printLoop (p : Printer) : Nat → Bool → String → List Any → String
  | _, _, buf, [] => buf
  | argNum, prevString, buf, arg :: rest =>
    let isStr := isString arg
    let buf1 := if argNum > 0 ∧ ¬ isStr ∧ ¬ prevString then buf.push ' ' else buf
    printLoop p (argNum + 1) isStr (buf1 ++ p.verbV arg) rest

/-- The function `fmt.Sprint`. -/
def Sprint (p : Printer) (a : List Any) : String :=
  printLoop p 0 false "" a

/-- Wrapping of `fmt.Errorf(pre ++ "%w", err)`: the message is the text before the
verb followed by the cause's message, and the cause is kept for unwrapping. -/
def Errorf_w (pre : String) (cause : GoError) : GoError :=
  GoError.wrap (pre ++ cause.Error) cause

end fmt

/-! ## `zapcore` and `zap` -/

namespace zapcore

/-- A `zapcore.Level` is an `int8`. -/
abbrev Level := Int

def DebugLevel : Level := -1
def InfoLevel : Level := 0
def WarnLevel : Level := 1
def ErrorLevel : Level := 2
def DPanicLevel : Level := 3
def PanicLevel : Level := 4
def FatalLevel : Level := 5

inductive LevelEncoder where
  | LowercaseLevelEncoder | CapitalLevelEncoder
  deriving DecidableEq, Repr

inductive TimeEncoder where
  | ISO8601TimeEncoder | EpochTimeEncoder
  deriving DecidableEq, Repr

inductive DurationEncoder where
  | SecondsDurationEncoder | StringDurationEncoder
  deriving DecidableEq, Repr

inductive CallerEncoder where
  | ShortCallerEncoder
  deriving DecidableEq, Repr

/-- The fields of `zapcore.EncoderConfig` that the three encoder profiles in use
set; a `nil` encoder function is `none`. -/
structure EncoderConfig where
  MessageKey : String := ""
  LevelKey : String := ""
  TimeKey : String := ""
  NameKey : String := ""
  CallerKey : String := ""
  StacktraceKey : String := ""
  LineEnding : String := ""
  EncodeLevel : Option LevelEncoder := none
  EncodeTime : Option TimeEncoder := none
  EncodeDuration : Option DurationEncoder := none
  EncodeCaller : Option CallerEncoder := none
  deriving DecidableEq, Repr

def DefaultLineEnding : String := "\n"

end zapcore

namespace zap

open zapcore

/-- Sampling settings: `Initial` and `Thereafter`. -/
structure SamplingConfig where
  Initial : Nat
  Thereafter : Nat
  deriving DecidableEq, Repr

/-- The record `zap.Config`. -/
structure Config where
  Level : Option Level := none
  Development : Bool := false
  DisableCaller : Bool := false
  DisableStacktrace : Bool := false
  Sampling : Option SamplingConfig := none
  Encoding : String := ""
  EncoderConfig : zapcore.EncoderConfig := {}
  OutputPaths : List String := []
  ErrorOutputPaths : List String := []
  InitialFields : List Field := []
  deriving DecidableEq, Repr

def NewProductionEncoderConfig : zapcore.EncoderConfig :=
  { TimeKey := "ts", LevelKey := "level", NameKey := "logger", CallerKey := "caller",
    MessageKey := "msg", StacktraceKey := "stacktrace",
    LineEnding := DefaultLineEnding,
    EncodeLevel := some .LowercaseLevelEncoder,
    EncodeTime := some .EpochTimeEncoder,
    EncodeDuration := some .SecondsDurationEncoder,
    EncodeCaller := some .ShortCallerEncoder }

def NewDevelopmentEncoderConfig : zapcore.EncoderConfig :=
  { TimeKey := "T", LevelKey := "L", NameKey := "N", CallerKey := "C",
    MessageKey := "M", StacktraceKey := "S",
    LineEnding := DefaultLineEnding,
    EncodeLevel := some .CapitalLevelEncoder,
    EncodeTime := some .ISO8601TimeEncoder,
    EncodeDuration := some .StringDurationEncoder,
    EncodeCaller := some .ShortCallerEncoder }

def NewProductionConfig : Config :=
  { Level := some InfoLevel, Development := false,
    Sampling := some { Initial := 100, Thereafter := 100 },
    Encoding := "json", EncoderConfig := NewProductionEncoderConfig,
    OutputPaths := ["stderr"], ErrorOutputPaths := ["stderr"] }

def NewDevelopmentConfig : Config :=
  { Level := some DebugLevel, Development := true,
    Encoding := "console", EncoderConfig := NewDevelopmentEncoderConfig,
    OutputPaths := ["stderr"], ErrorOutputPaths := ["stderr"] }

/-- A built `zap.Logger`: the minimum level of its core, whether entries are
annotated with their call site (`AddCaller`), from which level on a stack trace
is attached (`AddStacktrace`), the sampler wrapped around the core (if any), the
encoding, and the fields accumulated in the core's encoder. -/
structure Logger where
  level : Level
  development : Bool
  addCaller : Bool
  addStack : Option Level
  sampling : Option SamplingConfig
  encoding : String
  encoderConfig : zapcore.EncoderConfig
  context : List Field
  deriving DecidableEq, Repr

/-- The method `Config.Build`, for the standard sinks.  `registered` is zap's
encoder registry (`"console"` and `"json"` unless the program registers more);
an encoder configuration with a time key and no time encoder is refused, the
encoder is looked up under `cfg.Encoding`, and an unknown name is reported with
`%q`.  The caller annotation is on unless disabled, and stack traces are
attached from the error level on, in development from the warn level on. -/
def Config.Build (p : fmt.Printer) (registered : String → Bool) (cfg : Config) :
    Except GoError Logger :=
  if cfg.EncoderConfig.TimeKey ≠ "" ∧ cfg.EncoderConfig.EncodeTime = none then
    .error (.base "missing EncodeTime in EncoderConfig")
  else if cfg.Encoding = "" then
    .error (.base "no encoder name specified")
  else if registered cfg.Encoding = false then
    .error (.base ("no encoder registered for name " ++ p.Quote cfg.Encoding))
  else
    match cfg.Level with
    | none => .error (.base "missing Level")
    | some lvl =>
      .ok { level := lvl, development := cfg.Development,
            addCaller := !cfg.DisableCaller,
            addStack :=
              if cfg.DisableStacktrace then none
              else some (if cfg.Development then WarnLevel else ErrorLevel),
            sampling := cfg.Sampling,
            encoding := cfg.Encoding, encoderConfig := cfg.EncoderConfig,
            context := cfg.InitialFields }

/-- The registry of a program that registers no encoder of its own. -/
def defaultRegistry (name : String) : Bool :=
  name = "console" ∨ name = "json"

/-- The method `Logger.With`: a child logger whose core has the fields added after
those of the parent; the parent is not touched. -/
def Logger.With (log : Logger) (fields : List Field) : Logger :=
  if fields.isEmpty then log else { log with context := log.context ++ fields }

/-- The field constructor `zap.String`. -/
def fieldString (key val : String) : Field := ⟨key, Any.str val⟩

/-- The field constructor `zap.Error`, for a non-nil error. -/
def fieldError (e : GoError) : Field := ⟨"error", Any.err e⟩

/-- Whether the core accepts entries of the level. -/
def Logger.Enabled (log : Logger) (lvl : Level) : Bool :=
  decide (log.level ≤ lvl)

/-- A `zap.SugaredLogger`. -/
structure SugaredLogger where
  base : Logger
  deriving DecidableEq, Repr

/-- The method `Logger.Sugar`. -/
def Logger.Sugar (log : Logger) : SugaredLogger := ⟨log⟩

/-- The loop of `sweetenFields`: a `zap.Field` is taken as it is, the first error
becomes the field `error` (further ones are reported and dropped), a dangling last
element is reported and dropped, and any other element is the key of a pair with
the element after it (the pair is dropped when the key is not a `string`). -/
def sweetenLoop : Bool → List Any → List Field
  | _, [] => []
  | seenError, Any.field k v :: rest => ⟨k, v⟩ :: sweetenLoop seenError rest
  | seenError, Any.err e :: rest =>
    if seenError then sweetenLoop true rest else fieldError e :: sweetenLoop true rest
  | _, [_] => []
  | seenError, Any.str k :: v :: rest => ⟨k, v⟩ :: sweetenLoop seenError rest
  | seenError, _ :: _ :: rest => sweetenLoop seenError rest

/-- The method `sweetenFields`. -/
def sweetenFields (args : List Any) : List Field :=
  sweetenLoop false args

/-- The method `SugaredLogger.With`. -/
def SugaredLogger.With (s : SugaredLogger) (args : List Any) : SugaredLogger :=
  ⟨s.base.With (sweetenFields args)⟩

/-- The function `getMessage`. -/
def getMessage (p : fmt.Printer) (template : String) (fmtArgs : List Any) : String :=
  if fmtArgs.isEmpty then template
  else if template ≠ "" then p.Sprintf template fmtArgs
  else match fmtArgs with
    | [Any.str s] => s
    | _ => fmt.Sprint p fmtArgs

/-- The call site that zap records for an entry (`zapcore.EntryCaller`): the
function that called the sugared logger, with its file, given from the root of
the module on, and its line. -/
structure Caller where
  file : String
  line : Nat
  function : String
  deriving DecidableEq, Repr

/-- One written log entry: its level, message, structured context, call site
(when the logger annotates it) and whether a stack trace is attached.  The time
of the entry and the frames of the trace, which start at the call site, are left
out. -/
structure Record where
  level : Level
  message : String
  context : List Field
  caller : Option Caller
  stacktrace : Bool
  deriving DecidableEq, Repr

/-- What happens after a log call returns from the core. -/
inductive Terminal where
  | proceed
  | panics
  | exits
  deriving DecidableEq, Repr

/-- The effect of one log call: the entries written and the terminal action. -/
structure Effect where
  written : List Record
  terminal : Terminal
  deriving DecidableEq, Repr

/-- The terminal hook that `Logger.check` installs for the level. -/
def terminalOf (development : Bool) (lvl : Level) : Terminal :=
  if lvl = PanicLevel then .panics
  else if lvl = FatalLevel then .exits
  else if lvl = DPanicLevel ∧ development then .panics
  else .proceed

/-- Whether `Logger.check` attaches a stack trace to an entry of the level. -/
def Logger.stackAt (log : Logger) (lvl : Level) : Bool :=
  match log.addStack with
  | some from_ => decide (from_ ≤ lvl)
  | none => false

/-- The method `SugaredLogger.log` followed by `Logger.check` and
`CheckedEntry.Write`.  Below `DPanicLevel` a disabled level returns at once; the
entry is written when the core enables the level and the sampler, if one is
installed, lets it through.  The sampler counts equal entries per clock tick, so
its verdict `sampled` is an input.  `site` is the frame that called the method of
the sugared logger, which `check` reads off the stack. -/
def SugaredLogger.log (p : fmt.Printer) (s : SugaredLogger) (sampled : Bool) (site : Caller)
    (lvl : Level) (template : String) (fmtArgs : List Any) (context : List Any) : Effect :=
  if lvl < DPanicLevel ∧ s.base.Enabled lvl = false then
    ⟨[], .proceed⟩
  else
    let msg := getMessage p template fmtArgs
    let willWrite := s.base.Enabled lvl && (s.base.sampling.isNone || sampled)
    let written : List Record :=
      if willWrite then
        [⟨lvl, msg, s.base.context ++ sweetenFields context,
          if s.base.addCaller then some site else none, s.base.stackAt lvl⟩]
      else []
    ⟨written, terminalOf s.base.development lvl⟩

def SugaredLogger.Debug (p : fmt.Printer) (s : SugaredLogger) (sampled : Bool) (site : Caller)
    (args : List Any) : Effect :=
  s.log p sampled site DebugLevel "" args []

def SugaredLogger.Info (p : fmt.Printer) (s : SugaredLogger) (sampled : Bool) (site : Caller)
    (args : List Any) : Effect :=
  s.log p sampled site InfoLevel "" args []

def SugaredLogger.Warn (p : fmt.Printer) (s : SugaredLogger) (sampled : Bool) (site : Caller)
    (args : List Any) : Effect :=
  s.log p sampled site WarnLevel "" args []

def SugaredLogger.Error (p : fmt.Printer) (s : SugaredLogger) (sampled : Bool) (site : Caller)
    (args : List Any) : Effect :=
  s.log p sampled site ErrorLevel "" args []

def SugaredLogger.Fatal (p : fmt.Printer) (s : SugaredLogger) (sampled : Bool) (site : Caller)
    (args : List Any) : Effect :=
  s.log p sampled site FatalLevel "" args []

def SugaredLogger.Panic (p : fmt.Printer) (s : SugaredLogger) (sampled : Bool) (site : Caller)
    (args : List Any) : Effect :=
  s.log p sampled site PanicLevel "" args []

/-- The formatted variants, all of the shape `s.log(level, template, args, nil)`. -/
def SugaredLogger.Logf (p : fmt.Printer) (s : SugaredLogger) (sampled : Bool) (site : Caller)
    (lvl : Level) (template : String) (args : List Any) : Effect :=
  s.log p sampled site lvl template args []

end zap

/-! ## Package `config`: the settings structure -/

namespace config

structure AppConfig where
  Env : String := ""
  Debug : Bool := false
  EnableProfiling : Bool := false
  deriving DecidableEq, Repr

structure Log where
  Level : String := ""
  Format : String := ""
  deriving DecidableEq, Repr

structure HTTP where
  Timeout : Int := 0
  deriving DecidableEq, Repr

structure PostgresqlInstance where
  Host : String := ""
  Port : String := ""
  Username : String := ""
  Password : String := ""
  Database : String := ""
  MaxOpen : Int := 0
  MaxIdle : Int := 0
  deriving DecidableEq, Repr

structure Postgresql where
  Master : PostgresqlInstance := {}
  Slave : PostgresqlInstance := {}
  deriving DecidableEq, Repr

structure Connection where
  HTTP : HTTP := {}
  Postgresql : Postgresql := {}
  deriving DecidableEq, Repr

structure Config where
  Log : Log := {}
  AppConfig : AppConfig := {}
  Connection : Connection := {}
  deriving DecidableEq, Repr

end config

/-! ## Package `log` -/

namespace log

open zapcore

/-- The adapter object: it holds the pointer to its sugared logger, which is never
reassigned. -/
structure ZapAdapter where
  logger : zap.SugaredLogger
  deriving DecidableEq, Repr

/-- The heap of adapter objects allocated so far.  A `Logger` interface value
returned by this package is a pointer into it. -/
structure Store where
  objects : List ZapAdapter
  deriving DecidableEq, Repr

/-- A `*ZapAdapter`. -/
abbrev Handle := Nat

/-- The interface `Logger`: its one implementation is `*ZapAdapter`. -/
abbrev Logger := Handle

/-- Dereference; `none` for a pointer that designates no adapter. -/
def Store.deref (σ : Store) (h : Handle) : Option ZapAdapter :=
  σ.objects[h]?

/-- The allocation in `&ZapAdapter{...}`: a new object at a fresh address. -/
def Store.alloc (σ : Store) (z : ZapAdapter) : Store × Handle :=
  (⟨σ.objects ++ [z]⟩, σ.objects.length)

/-- The structured context that a record logged through the handle carries. -/
def Store.context (σ : Store) (h : Handle) : Option (List Field) :=
  (σ.deref h).map (fun z => z.logger.base.context)

def defaultEncoderConfig : zapcore.EncoderConfig :=
  { TimeKey := "time",
    LevelKey := "level",
    NameKey := "logger",
    CallerKey := "caller",
    MessageKey := "msg",
    StacktraceKey := "stacktrace",
    LineEnding := zapcore.DefaultLineEnding,
    EncodeLevel := some .LowercaseLevelEncoder,
    EncodeTime := some .ISO8601TimeEncoder,
    EncodeDuration := some .SecondsDurationEncoder,
    EncodeCaller := some .ShortCallerEncoder }

def parseLogLevel (level : String) : zapcore.Level :=
  if level = "debug" then DebugLevel
  else if level = "info" then InfoLevel
  else if level = "warn" then WarnLevel
  else if level = "error" then ErrorLevel
  else if level = "fatal" then FatalLevel
  else if level = "panic" then PanicLevel
  else InfoLevel

/-- The value of `zapConfig` when `NewLogger` calls `Build` (lines 53 to 69); the
empty `zap.Config{}` of line 53 is overwritten by either branch of line 55. -/
def NewLogger.zapConfig (conf : config.Config) : zap.Config :=
  let zapConfig :=
    if conf.AppConfig.Debug then zap.NewDevelopmentConfig
    else zap.NewProductionConfig
  let zapConfig :=
    if conf.Log.Format ≠ "" then { zapConfig with Encoding := conf.Log.Format }
    else { zapConfig with Encoding := "console" }
  let zapConfig := { zapConfig with EncoderConfig := defaultEncoderConfig }
  let level := parseLogLevel conf.Log.Level
  { zapConfig with Level := some level }

/-- The constructor `NewLogger`.  The package variable `SemanticVersion` is read
at the call, and the adapter is allocated in the store. -/
def NewLogger (p : fmt.Printer) (registered : String → Bool) (SemanticVersion : String)
    (σ : Store) (conf : config.Config) : Except GoError (Store × Logger) :=
  match (NewLogger.zapConfig conf).Build p registered with
  | .error err => .error (fmt.Errorf_w "logger.NewLogger: failed to build zap logger: " err)
  | .ok logger =>
    let logger :=
      if SemanticVersion ≠ "" then logger.With [zap.fieldString "version" SemanticVersion]
      else logger
    .ok (σ.alloc { logger := logger.Sugar })

/-- The call site of a method of the adapter: the line of `log.go` on which it
calls the sugared logger. -/
def site (line : Nat) (method : String) : zap.Caller :=
  { file := "internal/log/log.go", line := line,
    function := "nvh/my-app/internal/log.(*ZapAdapter)." ++ method }

/-- Run a logging method of the adapter behind the handle. -/
def withAdapter (σ : Store) (z : Handle) (f : zap.SugaredLogger → zap.Effect) :
    Option zap.Effect :=
  (σ.deref z).map (fun a => f a.logger)

def Debug (p : fmt.Printer) (σ : Store) (z : Handle) (sampled : Bool) (args : List Any) :=
  withAdapter σ z (fun l => l.Debug p sampled (site 119 "Debug") args)

def Info (p : fmt.Printer) (σ : Store) (z : Handle) (sampled : Bool) (args : List Any) :=
  withAdapter σ z (fun l => l.Info p sampled (site 123 "Info") args)

def Warn (p : fmt.Printer) (σ : Store) (z : Handle) (sampled : Bool) (args : List Any) :=
  withAdapter σ z (fun l => l.Warn p sampled (site 127 "Warn") args)

def Error (p : fmt.Printer) (σ : Store) (z : Handle) (sampled : Bool) (args : List Any) :=
  withAdapter σ z (fun l => l.Error p sampled (site 131 "Error") args)

def Fatal (p : fmt.Printer) (σ : Store) (z : Handle) (sampled : Bool) (args : List Any) :=
  withAdapter σ z (fun l => l.Fatal p sampled (site 135 "Fatal") args)

def Panic (p : fmt.Printer) (σ : Store) (z : Handle) (sampled : Bool) (args : List Any) :=
  withAdapter σ z (fun l => l.Panic p sampled (site 139 "Panic") args)

def Debugf (p : fmt.Printer) (σ : Store) (z : Handle) (sampled : Bool) (format : String)
    (args : List Any) :=
  withAdapter σ z (fun l => l.Logf p sampled (site 143 "Debugf") DebugLevel format args)

def Infof (p : fmt.Printer) (σ : Store) (z : Handle) (sampled : Bool) (format : String)
    (args : List Any) :=
  withAdapter σ z (fun l => l.Logf p sampled (site 147 "Infof") InfoLevel format args)

def Warnf (p : fmt.Printer) (σ : Store) (z : Handle) (sampled : Bool) (format : String)
    (args : List Any) :=
  withAdapter σ z (fun l => l.Logf p sampled (site 151 "Warnf") WarnLevel format args)

def Errorf (p : fmt.Printer) (σ : Store) (z : Handle) (sampled : Bool) (format : String)
    (args : List Any) :=
  withAdapter σ z (fun l => l.Logf p sampled (site 155 "Errorf") ErrorLevel format args)

def Fatalf (p : fmt.Printer) (σ : Store) (z : Handle) (sampled : Bool) (format : String)
    (args : List Any) :=
  withAdapter σ z (fun l => l.Logf p sampled (site 159 "Fatalf") FatalLevel format args)

def Panicf (p : fmt.Printer) (σ : Store) (z : Handle) (sampled : Bool) (format : String)
    (args : List Any) :=
  withAdapter σ z (fun l => l.Logf p sampled (site 163 "Panicf") PanicLevel format args)

def Println (p : fmt.Printer) (σ : Store) (z : Handle) (sampled : Bool) (args : List Any) :=
  withAdapter σ z (fun l => l.Info p sampled (site 167 "Println") [Any.str (fmt.Sprintln p args)])

def Debugln (p : fmt.Printer) (σ : Store) (z : Handle) (sampled : Bool) (args : List Any) :=
  withAdapter σ z (fun l => l.Debug p sampled (site 171 "Debugln") [Any.str (fmt.Sprintln p args)])

def Infoln (p : fmt.Printer) (σ : Store) (z : Handle) (sampled : Bool) (args : List Any) :=
  withAdapter σ z (fun l => l.Info p sampled (site 175 "Infoln") [Any.str (fmt.Sprintln p args)])

def Warnln (p : fmt.Printer) (σ : Store) (z : Handle) (sampled : Bool) (args : List Any) :=
  withAdapter σ z (fun l => l.Warn p sampled (site 179 "Warnln") [Any.str (fmt.Sprintln p args)])

def Errorln (p : fmt.Printer) (σ : Store) (z : Handle) (sampled : Bool) (args : List Any) :=
  withAdapter σ z (fun l => l.Error p sampled (site 183 "Errorln") [Any.str (fmt.Sprintln p args)])

def Fatalln (p : fmt.Printer) (σ : Store) (z : Handle) (sampled : Bool) (args : List Any) :=
  withAdapter σ z (fun l => l.Fatal p sampled (site 187 "Fatalln") [Any.str (fmt.Sprintln p args)])

def Panicln (p : fmt.Printer) (σ : Store) (z : Handle) (sampled : Bool) (args : List Any) :=
  withAdapter σ z (fun l => l.Panic p sampled (site 191 "Panicln") [Any.str (fmt.Sprintln p args)])

/-- The Go type `Fields`, a `map[string]interface{}`, given by its entries. -/
abbrev Fields := List (String × Any)

def WithField (σ : Store) (z : Handle) (key : String) (value : Any) : Option (Store × Logger) :=
  (σ.deref z).map (fun a => σ.alloc { logger := a.logger.With [Any.str key, value] })

/-- The loop of `WithFields`: `args = append(args, key, value)` per entry visited. -/
def WithFields.args (visited : Fields) : List Any :=
  visited.foldl (fun args kv => args ++ [Any.str kv.1, kv.2]) []

/-- The method `WithFields`.  `visited` is the sequence of entries in the order in
which `range fields` yields them: each entry of the map once, in an order that Go
leaves unspecified. -/
def WithFields (σ : Store) (z : Handle) (visited : Fields) : Option (Store × Logger) :=
  let args := WithFields.args visited
  (σ.deref z).map (fun a => σ.alloc { logger := a.logger.With args })

/-- An `error` interface value as an `interface{}`: nil stays nil. -/
def errorValue : Option GoError → Any
  | none => Any.null
  | some e => Any.err e

def WithError (σ : Store) (z : Handle) (err : Option GoError) : Option (Store × Logger) :=
  (σ.deref z).map (fun a => σ.alloc { logger := a.logger.With [Any.str "error", errorValue err] })

/-- The call `Sync`: the store is not touched; `flushed` is the result of the
backend. -/
def Sync (σ : Store) (z : Handle) (flushed : Option GoError) : Option (Option GoError) :=
  (σ.deref z).map (fun _ => flushed)

/-- One call that derives a handle. -/
inductive Derivation where
  | field (key : String) (value : Any)
  | fields (visited : Fields)
  | error (err : Option GoError)
  deriving DecidableEq, Repr

/-- The handle reached from `z` by a chain of deriving calls, each made on the
handle that the call before it returned. -/
def derive : Store → Handle → List Derivation → Option (Store × Logger)
  | σ, z, [] => some (σ, z)
  | σ, z, Derivation.field key value :: rest =>
    (WithField σ z key value).bind (fun r => derive r.1 r.2 rest)
  | σ, z, Derivation.fields visited :: rest =>
    (WithFields σ z visited).bind (fun r => derive r.1 r.2 rest)
  | σ, z, Derivation.error err :: rest =>
    (WithError σ z err).bind (fun r => derive r.1 r.2 rest)

/-- The level names of the specification with the level each stands for. -/
def levelNames : List (String × zapcore.Level) :=
  [("debug", DebugLevel), ("info", InfoLevel), ("warn", WarnLevel), ("error", ErrorLevel),
   ("fatal", FatalLevel), ("panic", PanicLevel)]

/-- The message of the line variants in the words of the specification: the
operands joined by single spaces and ended by one newline. -/
def lineMessage (p : fmt.Printer) (args : List Any) : String :=
  " ".intercalate (args.map p.verbV) ++ "\n"

/-- The six line variants with the severity each logs at and the call site each
logs from. -/
def lineVariants :
    List (zapcore.Level × zap.Caller ×
      (fmt.Printer → Store → Handle → Bool → List Any → Option zap.Effect)) :=
  [(DebugLevel, site 171 "Debugln", Debugln), (InfoLevel, site 175 "Infoln", Infoln),
   (WarnLevel, site 179 "Warnln", Warnln), (ErrorLevel, site 183 "Errorln", Errorln),
   (FatalLevel, site 187 "Fatalln", Fatalln), (PanicLevel, site 191 "Panicln", Panicln)]

/-- The effect of a log call with the call site of its records set aside. -/
def withoutCaller (eff : zap.Effect) : zap.Effect :=
  { eff with written := eff.written.map (fun r => { r with caller := none }) }

end log

/-! ## The process environment, the file system and `godotenv` -/

/-- The process environment: `os.LookupEnv`. -/
abbrev Environ := String → Option String

/-- A value of viper's configuration map: a YAML scalar (null, string, integer,
boolean), a sequence or a nested map (floating-point scalars are left out).  The
keys are those of the document after viper has lower-cased them. -/
inductive Value where
  | null
  | str (s : String)
  | int (i : Int)
  | bool (b : Bool)
  | list (items : List Value)
  | map (entries : List (String × Value))
  deriving Repr

/-- What the loader sees of the machine it runs on.  Paths are plain strings;
`filepathJoin` is `filepath.Join`, `absPathify` viper's function of that name,
`stat` whether `os.Stat` succeeds, `readEnvFile` godotenv's reading and parsing of
a file into a `map[string]string` (`none` when it fails), `searchInPath` the
config file that viper finds in a directory for the name `config`, `readConfig`
the reading and YAML decoding of that file, `ParseInt` the function
`strconv.ParseInt(s, 0, 64)`, `ToUpper` the function `strings.ToUpper`,
`decodeError` the error value that mapstructure builds from the fields that
failed to decode (its text differs between versions of the library), and
`dottedSettings` what viper's `AllSettings` yields from a config of which some
key holds a dot, in the environment given: viper splits such keys on the dots
and nests them again one by one in the order in which Go iterates over its key
set, an order that is not fixed. -/
structure World where
  environ : Environ
  filepathJoin : String → String → String
  absPathify : String → String
  stat : String → Bool
  readEnvFile : String → Option (String → Option String)
  searchInPath : String → Option String
  readConfig : String → Except GoError (List (String × Value))
  ParseInt : String → Option Int
  ToUpper : String → String
  decodeError : List String → GoError
  dottedSettings : List (String × Value) → Environ → List (String × Value)

namespace godotenv

/-- The function `loadFile(filename, false)`: every key of the parsed file that
is not among the variables of the current environment is set; a variable that
exists, even empty, is kept.  A file that cannot be read or parsed changes
nothing and gives an error. -/
def loadFile (w : World) (env : Environ) (filename : String) : Environ × Bool :=
  match w.readEnvFile filename with
  | none => (env, false)
  | some envMap =>
    (fun key => match env key with
      | some current => some current
      | none => envMap key, true)

/-- The loop of `Load` over the file names: it stops at the first error. -/
def loadAll (w : World) : Environ → List String → Environ × Bool
  | env, [] => (env, true)
  | env, filename :: rest =>
    match loadFile w env filename with
    | (env1, true) => loadAll w env1 rest
    | (env1, false) => (env1, false)

/-- The function `Load`: without file names it loads `.env` of the working
directory.  The boolean is `err == nil`. -/
def Load (w : World) (env : Environ) (filenames : List String) : Environ × Bool :=
  loadAll w env (if filenames.isEmpty then [".env"] else filenames)

end godotenv

/-! ## `viper` -/

namespace viper

def SupportedExts : List String :=
  ["json", "toml", "yaml", "yml", "properties", "props", "prop", "hcl", "tfvars",
   "dotenv", "env", "ini"]

/-- The state of a `viper.Viper` that the loader touches. -/
structure Viper where
  configName : String := "config"
  configType : String := ""
  configPaths : List String := []
  automaticEnvApplied : Bool := false
  envKeyReplacer : Option (Char × Char) := none
  envPrefix : String := ""
  allowEmptyEnv : Bool := false
  config : List (String × Value) := []

def New : Viper := {}

def Viper.SetConfigName (v : Viper) (name : String) : Viper :=
  if name ≠ "" then { v with configName := name } else v

def Viper.SetConfigType (v : Viper) (ty : String) : Viper :=
  if ty ≠ "" then { v with configType := ty } else v

def Viper.AddConfigPath (w : World) (v : Viper) (dir : String) : Viper :=
  if dir ≠ "" then
    let absin := w.absPathify dir
    if absin ∈ v.configPaths then v else { v with configPaths := v.configPaths ++ [absin] }
  else v

def Viper.AutomaticEnv (v : Viper) : Viper :=
  { v with automaticEnvApplied := true }

/-- The method `SetEnvKeyReplacer` for `strings.NewReplacer(old, new)` with two
one-character strings. -/
def Viper.SetEnvKeyReplacer (v : Viper) (old new : Char) : Viper :=
  { v with envKeyReplacer := some (old, new) }

/-- The replacement `Replacer.Replace` of a one-character replacer. -/
def Replace (r : Char × Char) (s : String) : String :=
  String.mk (s.data.map (fun c => if c = r.1 then r.2 else c))

def Viper.mergeWithEnvPre (w : World) (v : Viper) (key : String) : String :=
  if v.envPrefix ≠ "" then w.ToUpper (v.envPrefix ++ "_" ++ key) else w.ToUpper key

/-- The method `getEnv`: the key replacer is applied, and an empty variable counts
as unset unless `AllowEmptyEnv` was called. -/
def Viper.getEnv (v : Viper) (env : Environ) (key : String) : Option String :=
  let key := match v.envKeyReplacer with
    | some r => Replace r key
    | none => key
  match env key with
  | some val => if v.allowEmptyEnv ∨ val ≠ "" then some val else none
  | none => none

/-- The dotted key of a path. -/
def dotted (path : List String) : String :=
  ".".intercalate path

/-- The environment variable consulted for a key path. -/
def Viper.envOf (w : World) (v : Viper) (env : Environ) (path : List String) :
    Option String :=
  v.getEnv env (v.mergeWithEnvPre w (dotted path))

/-- The method `isPathShadowedInAutoEnv`: some proper, non-empty initial part of
the path has an environment variable of its own. -/
def Viper.isPathShadowedInAutoEnv (w : World) (v : Viper) (env : Environ)
    (path : List String) : Bool :=
  (List.range path.length).any
    (fun i => decide (1 ≤ i) && (v.envOf w env (path.take i)).isSome)

/-- The method `find` for a leaf key of the config file, after the sources that
this program never fills (overrides, flags, bound variables): first the automatic
environment, which also hides a key under a path that has a variable of its own,
then the value in the file.  The result `none` is Go's `nil`. -/
def Viper.find (w : World) (v : Viper) (env : Environ) (path : List String)
    (fileValue : Value) : Option Value :=
  let fromFile : Option Value :=
    match fileValue with
    | Value.null => none
    | x => some x
  if v.automaticEnvApplied then
    match v.envOf w env path with
    | some val => some (Value.str val)
    | none =>
      if decide (path.length > 1) && v.isPathShadowedInAutoEnv w env path then none
      else fromFile
  else fromFile

mutual
/-- Whether no key of the maps of a value holds a dot (maps inside sequences are
not flattened by viper and do not count). -/
def plainValue : Value → Bool
  | Value.map entries => plainKeys entries
  | _ => true
/-- Whether no key of a document, at any depth, holds a dot. -/
def plainKeys : List (String × Value) → Bool
  | [] => true
  | (key, value) :: rest => !key.data.contains '.' && plainValue value && plainKeys rest
end

mutual
/-- The value that `AllSettings` holds in place of a value of the config file, for
a file whose keys hold no dot.  `AllKeys` lists the leaf keys of the file, `Get`
resolves each of them with `find`, keys resolved to `nil` are left out, and the
remaining ones are nested again along their dots; when no key holds a dot, the
paths of the leaves are those of the file, no two of them meet and the outcome,
whatever the order, is the tree of the file with every leaf rewritten in place
and the maps dropped in which no leaf remains. -/
def Viper.settingsOf (w : World) (v : Viper) (env : Environ) (path : List String) :
    Value → Option Value
  | Value.map entries =>
    match Viper.settingsIn w v env path entries with
    | [] => none
    | kept => some (Value.map kept)
  | Value.null => v.find w env path Value.null
  | Value.str s => v.find w env path (Value.str s)
  | Value.int i => v.find w env path (Value.int i)
  | Value.bool b => v.find w env path (Value.bool b)
  | Value.list items => v.find w env path (Value.list items)
/-- The entries of a map of `AllSettings`; see `settingsOf`. -/
def Viper.settingsIn (w : World) (v : Viper) (env : Environ) (path : List String) :
    List (String × Value) → List (String × Value)
  | [] => []
  | (key, value) :: rest =>
    match Viper.settingsOf w v env (path ++ [key]) value with
    | none => Viper.settingsIn w v env path rest
    | some kept => (key, kept) :: Viper.settingsIn w v env path rest
end

/-- The method `AllSettings`: the tree of the file rewritten leaf by leaf when no
key of the file holds a dot, and what the machine makes of it otherwise. -/
def Viper.AllSettings (w : World) (v : Viper) (env : Environ) : List (String × Value) :=
  if plainKeys v.config then v.settingsIn w env [] v.config
  else w.dottedSettings v.config env

/-- The error `ConfigFileNotFoundError` (for plain path names). -/
def ConfigFileNotFoundError (name : String) (locations : List String) : GoError :=
  GoError.base ("Config File \"" ++ name ++ "\" Not Found in \"[" ++
    " ".intercalate locations ++ "]\"")

/-- The method `findConfigFile`: the first config path in which a file is
found. -/
def Viper.findConfigFile (w : World) (v : Viper) : Except GoError String :=
  match v.configPaths.findSome? w.searchInPath with
  | some file => .ok file
  | none => .error (ConfigFileNotFoundError v.configName v.configPaths)

/-- The method `ReadInConfig`: `some err` when no file is found or the file found
cannot be read and decoded; otherwise the decoded map becomes the config. -/
def Viper.ReadInConfig (w : World) (v : Viper) : Viper × Option GoError :=
  match v.findConfigFile w with
  | .error err => (v, some err)
  | .ok filename =>
    if v.configType ∉ SupportedExts then
      (v, some (GoError.base ("Unsupported Config Type \"" ++ v.configType ++ "\"")))
    else
      match w.readConfig filename with
      | .error err => (v, some err)
      | .ok config => ({ v with config := config }, none)

end viper

/-! ## `mapstructure` -/

namespace mapstructure

/-- A `reflect.StructField`: the Go name of the field and its tag, as the list of
its `key:"value"` pairs. -/
structure StructField where
  Name : String
  Tag : List (String × String)
  deriving DecidableEq, Repr

/-- The method `StructTag.Get`: the value under the key, or the empty string. -/
def StructField.TagGet (f : StructField) (key : String) : String :=
  (f.Tag.lookup key).getD ""

/-- The key under which the decoder looks a field up: the part of its
`mapstructure` tag before the first comma, or the name of the field when that is
empty. -/
def fieldName (f : StructField) : String :=
  let tagValue := f.TagGet "mapstructure"
  let tagValue := String.mk (tagValue.data.takeWhile (fun c => c ≠ ','))
  if tagValue ≠ "" then tagValue else f.Name

/-- Simple case folding of a rune towards ASCII: the upper-case ASCII letters,
the long s (U+017F) and the Kelvin sign (U+212A) are the runes that fold to a
lower-case ASCII letter. -/
def foldRune (c : Char) : Char :=
  if c = Char.ofNat 0x17F then 's'
  else if c = Char.ofNat 0x212A then 'k'
  else c.toLower

/-- The function `strings.EqualFold` when one of the two strings is ASCII, as every
field name and tag of the settings structure is. -/
def EqualFold (s t : String) : Bool :=
  s.data.map foldRune == t.data.map foldRune

/-- The map entry that `decodeStructFromMap` takes for a field: the entry under
the exact key or, without one, the first entry met whose key matches
case-insensitively.  The order of the list stands for the order in which Go
iterates over the map, which is unspecified. -/
def lookupField (entries : List (String × Value)) (f : StructField) : Option Value :=
  match entries.lookup (fieldName f) with
  | some x => some x
  | none => (entries.find? (fun kv => EqualFold kv.1 (fieldName f))).map (fun kv => kv.2)

/-- The function `strconv.ParseBool`. -/
def ParseBool (str : String) : Option Bool :=
  if str ∈ ["1", "t", "T", "TRUE", "true", "True"] then some true
  else if str ∈ ["0", "f", "F", "FALSE", "false", "False"] then some false
  else none

/-- A decoded value together with the names of the fields that failed to
decode; a failed field keeps its zero value and decoding goes on. -/
abbrev Decoded (α : Type) := α × List String

/-- The method `decodeString` with `WeaklyTypedInput`. -/
def decodeString (name : String) : Value → Decoded String
  | Value.null => ("", [])
  | Value.str s => (s, [])
  | Value.bool b => (if b then "1" else "0", [])
  | Value.int i => (toString i, [])
  | Value.list _ => ("", [name])
  | Value.map _ => ("", [name])

/-- The conversion of an integer of the document to the 64-bit `int` of a field:
the YAML decoder hands over an `int`, or a `uint64` for a value from `2^63` on,
which `int64(...)` wraps around. -/
def toInt64 (i : Int) : Int :=
  (i + 2 ^ 63) % 2 ^ 64 - 2 ^ 63

/-- The method `decodeInt` with `WeaklyTypedInput`, for the 64-bit `int`;
`parseInt` is `strconv.ParseInt(str, 0, 64)`. -/
def decodeInt (parseInt : String → Option Int) (name : String) : Value → Decoded Int
  | Value.null => (0, [])
  | Value.int i => (toInt64 i, [])
  | Value.bool b => (if b then 1 else 0, [])
  | Value.str s =>
    match parseInt (if s = "" then "0" else s) with
    | some i => (i, [])
    | none => (0, [name])
  | Value.list _ => (0, [name])
  | Value.map _ => (0, [name])

/-- The method `decodeBool` with `WeaklyTypedInput`. -/
def decodeBool (name : String) : Value → Decoded Bool
  | Value.null => (false, [])
  | Value.bool b => (b, [])
  | Value.int i => (decide (i ≠ 0), [])
  | Value.str s =>
    match ParseBool s with
    | some b => (b, [])
    | none => if s = "" then (false, []) else (false, [name])
  | Value.list _ => (false, [name])
  | Value.map _ => (false, [name])

/-- The step of `decodeStructFromMap` for one field: without an entry the field
is left at its zero value; the name of the field is joined to that of the struct
with a dot, except at the root. -/
def decodeField {α : Type} (entries : List (String × Value)) (name : String) (f : StructField)
    (zero : α) (dec : String → Value → Decoded α) : Decoded α :=
  match lookupField entries f with
  | none => (zero, [])
  | some x => dec (if name ≠ "" then name ++ "." ++ fieldName f else fieldName f) x

/-- The method `decodeStruct`: a nil input changes nothing, a map is decoded field
by field, anything else is an error. -/
def decodeStruct {α : Type} (name : String) (zero : α)
    (fromMap : List (String × Value) → Decoded α) : Value → Decoded α
  | Value.null => (zero, [])
  | Value.map entries => fromMap entries
  | _ => (zero, [name])

end mapstructure

/-! ## Package `config`: the loader -/

namespace config

open mapstructure

namespace tags

def Config_Log : StructField := ⟨"Log", [("mapstructure", "log")]⟩
def Config_AppConfig : StructField := ⟨"AppConfig", [("mapstructure", "app_config")]⟩
def Config_Connection : StructField := ⟨"Connection", [("mapstructure", "connection")]⟩
def AppConfig_Env : StructField := ⟨"Env", [("mapstructure", "env")]⟩
def AppConfig_Debug : StructField := ⟨"Debug", [("mapstructure", "debug")]⟩
def AppConfig_EnableProfiling : StructField :=
  ⟨"EnableProfiling", [("mapstructure", "enable_profiling")]⟩
def Log_Level : StructField := ⟨"Level", [("mapstructure", "level")]⟩
def Log_Format : StructField := ⟨"Format", [("mapstructure", "format")]⟩
def Connection_HTTP : StructField := ⟨"HTTP", [("mapstructure", "http")]⟩
def Connection_Postgresql : StructField := ⟨"Postgresql", [("mapstructure", "postgresql")]⟩
def HTTP_Timeout : StructField := ⟨"Timeout", [("mapstructure", "timeout")]⟩
def Postgresql_Master : StructField := ⟨"Master", [("mapstructure", "master")]⟩
def Postgresql_Slave : StructField := ⟨"Slave", [("mapstruture", "slave")]⟩
def PostgresqlInstance_Host : StructField := ⟨"Host", [("mapstructure", "host")]⟩
def PostgresqlInstance_Port : StructField := ⟨"Port", [("mapstructure", "port")]⟩
def PostgresqlInstance_Username : StructField := ⟨"Username", [("mapstructure", "username")]⟩
def PostgresqlInstance_Password : StructField := ⟨"Password", [("mapstructure", "password")]⟩
def PostgresqlInstance_Database : StructField := ⟨"Database", [("mapstructure", "database")]⟩
def PostgresqlInstance_MaxOpen : StructField := ⟨"MaxOpen", [("mapstructure", "max_open")]⟩
def PostgresqlInstance_MaxIdle : StructField := ⟨"MaxIdle", [("mapstructure", "max_idle")]⟩

/-- Every field of the settings structure, with the struct it belongs to. -/
def all : List StructField :=
  [Config_Log, Config_AppConfig, Config_Connection, AppConfig_Env, AppConfig_Debug,
   AppConfig_EnableProfiling, Log_Level, Log_Format, Connection_HTTP, Connection_Postgresql,
   HTTP_Timeout, Postgresql_Master, Postgresql_Slave, PostgresqlInstance_Host,
   PostgresqlInstance_Port, PostgresqlInstance_Username, PostgresqlInstance_Password,
   PostgresqlInstance_Database, PostgresqlInstance_MaxOpen, PostgresqlInstance_MaxIdle]

end tags

/-- Decoding of a map into `AppConfig`. -/
def decodeAppConfig (name : String) (es : List (String × Value)) : Decoded AppConfig :=
  let env := decodeField es name tags.AppConfig_Env "" decodeString
  let debug := decodeField es name tags.AppConfig_Debug false decodeBool
  let prof := decodeField es name tags.AppConfig_EnableProfiling false decodeBool
  ({ Env := env.1, Debug := debug.1, EnableProfiling := prof.1 }, env.2 ++ debug.2 ++ prof.2)

/-- Decoding of a map into `Log`. -/
def decodeLog (name : String) (es : List (String × Value)) : Decoded Log :=
  let level := decodeField es name tags.Log_Level "" decodeString
  let format := decodeField es name tags.Log_Format "" decodeString
  ({ Level := level.1, Format := format.1 }, level.2 ++ format.2)

/-- Decoding of a map into `HTTP`. -/
def decodeHTTP (parseInt : String → Option Int) (name : String) (es : List (String × Value)) :
    Decoded HTTP :=
  let timeout := decodeField es name tags.HTTP_Timeout 0 (decodeInt parseInt)
  ({ Timeout := timeout.1 }, timeout.2)

/-- Decoding of a map into `PostgresqlInstance`. -/
def decodePostgresqlInstance (parseInt : String → Option Int) (name : String)
    (es : List (String × Value)) : Decoded PostgresqlInstance :=
  let host := decodeField es name tags.PostgresqlInstance_Host "" decodeString
  let port := decodeField es name tags.PostgresqlInstance_Port "" decodeString
  let username := decodeField es name tags.PostgresqlInstance_Username "" decodeString
  let password := decodeField es name tags.PostgresqlInstance_Password "" decodeString
  let database := decodeField es name tags.PostgresqlInstance_Database "" decodeString
  let maxOpen := decodeField es name tags.PostgresqlInstance_MaxOpen 0 (decodeInt parseInt)
  let maxIdle := decodeField es name tags.PostgresqlInstance_MaxIdle 0 (decodeInt parseInt)
  ({ Host := host.1, Port := port.1, Username := username.1, Password := password.1,
     Database := database.1, MaxOpen := maxOpen.1, MaxIdle := maxIdle.1 },
   host.2 ++ port.2 ++ username.2 ++ password.2 ++ database.2 ++ maxOpen.2 ++ maxIdle.2)

/-- Decoding of a map into `Postgresql`. -/
def decodePostgresql (parseInt : String → Option Int) (name : String)
    (es : List (String × Value)) : Decoded Postgresql :=
  let master := decodeField es name tags.Postgresql_Master {}
    (fun n => decodeStruct n {} (decodePostgresqlInstance parseInt n))
  let slave := decodeField es name tags.Postgresql_Slave {}
    (fun n => decodeStruct n {} (decodePostgresqlInstance parseInt n))
  ({ Master := master.1, Slave := slave.1 }, master.2 ++ slave.2)

/-- Decoding of a map into `Connection`. -/
def decodeConnection (parseInt : String → Option Int) (name : String)
    (es : List (String × Value)) : Decoded Connection :=
  let http := decodeField es name tags.Connection_HTTP {}
    (fun n => decodeStruct n {} (decodeHTTP parseInt n))
  let pg := decodeField es name tags.Connection_Postgresql {}
    (fun n => decodeStruct n {} (decodePostgresql parseInt n))
  ({ HTTP := http.1, Postgresql := pg.1 }, http.2 ++ pg.2)

/-- Decoding of a map into `Config`. -/
def decodeConfig (parseInt : String → Option Int) (es : List (String × Value)) :
    Decoded Config :=
  let log := decodeField es "" tags.Config_Log {} (fun n => decodeStruct n {} (decodeLog n))
  let app := decodeField es "" tags.Config_AppConfig {}
    (fun n => decodeStruct n {} (decodeAppConfig n))
  let conn := decodeField es "" tags.Config_Connection {}
    (fun n => decodeStruct n {} (decodeConnection parseInt n))
  ({ Log := log.1, AppConfig := app.1, Connection := conn.1 }, log.2 ++ app.2 ++ conn.2)

end config

namespace viper

/-- The method `Unmarshal` into a zero `config.Config`: `AllSettings` is decoded
with `mapstructure` (weakly typed input); when fields fail, the error is the one
that mapstructure builds from them. -/
def Viper.Unmarshal (w : World) (v : Viper) (env : Environ) : config.Config × Option GoError :=
  match config.decodeConfig w.ParseInt (v.AllSettings w env) with
  | (conf, []) => (conf, none)
  | (conf, failed) => (conf, some (w.decodeError failed))

end viper

namespace config

/-- What a call of `newConfig` leaves behind: the two results and the process
environment, which the `.env` files have extended. -/
structure Outcome where
  conf : Config
  err : Option GoError
  environ : Environ

/-- The first part of `newConfig`: the `.env` files are loaded into the process
environment (lines 60 to 67). -/
def newConfig.loadEnv (w : World) (paths : List String) : Environ :=
  let env := (godotenv.Load w w.environ []).1
  paths.foldl
    (fun env path =>
      let envPath := w.filepathJoin path ".env"
      if w.stat envPath then (godotenv.Load w env [envPath]).1 else env)
    env

/-- The viper that `newConfig` configures (lines 70 to 80). -/
def newConfig.viper (w : World) (paths : List String) : viper.Viper :=
  let v := viper.New
  let v := v.SetConfigName "config"
  let v := v.SetConfigType "yaml"
  let v := paths.foldl (fun v path => v.AddConfigPath w path) v
  let v := v.AutomaticEnv
  v.SetEnvKeyReplacer '.' '_'

def newConfig (w : World) (paths : List String) : Outcome :=
  let conf : Config := {}
  let env := newConfig.loadEnv w paths
  let v := newConfig.viper w paths
  match v.ReadInConfig w with
  | (_, some err) =>
    ⟨conf, some (fmt.Errorf_w "config.NewConfig: failed to read config file: " err), env⟩
  | (v, none) =>
    match v.Unmarshal w env with
    | (conf, some err) =>
      ⟨conf, some (fmt.Errorf_w "config.NewConfig: failed to unmarshal config: " err), env⟩
    | (conf, none) => ⟨conf, none, env⟩

def NewConfig (w : World) : Outcome :=
  newConfig w [".", "configs"]

end config

/-! ## The keys of the settings structure -/

namespace config

open mapstructure

/-- The Go kind of a leaf field of the settings. -/
inductive Kind where
  | string
  | int
  | bool
  deriving DecidableEq, Repr

/-- The value of a leaf field. -/
inductive Scalar where
  | str (s : String)
  | int (i : Int)
  | bool (b : Bool)
  deriving DecidableEq, Repr

/-- The leaf fields of a settings value, by key path. -/
def Config.leaves (c : Config) : List (List String × Scalar) :=
  [(["log", "level"], .str c.Log.Level), (["log", "format"], .str c.Log.Format),
   (["app_config", "env"], .str c.AppConfig.Env), (["app_config", "debug"], .bool c.AppConfig.Debug),
   (["app_config", "enable_profiling"], .bool c.AppConfig.EnableProfiling),
   (["connection", "http", "timeout"], .int c.Connection.HTTP.Timeout),
   (["connection", "postgresql", "master", "host"], .str c.Connection.Postgresql.Master.Host),
   (["connection", "postgresql", "master", "port"], .str c.Connection.Postgresql.Master.Port),
   (["connection", "postgresql", "master", "username"],
     .str c.Connection.Postgresql.Master.Username),
   (["connection", "postgresql", "master", "password"],
     .str c.Connection.Postgresql.Master.Password),
   (["connection", "postgresql", "master", "database"],
     .str c.Connection.Postgresql.Master.Database),
   (["connection", "postgresql", "master", "max_open"],
     .int c.Connection.Postgresql.Master.MaxOpen),
   (["connection", "postgresql", "master", "max_idle"],
     .int c.Connection.Postgresql.Master.MaxIdle),
   (["connection", "postgresql", "slave", "host"], .str c.Connection.Postgresql.Slave.Host),
   (["connection", "postgresql", "slave", "port"], .str c.Connection.Postgresql.Slave.Port),
   (["connection", "postgresql", "slave", "username"],
     .str c.Connection.Postgresql.Slave.Username),
   (["connection", "postgresql", "slave", "password"],
     .str c.Connection.Postgresql.Slave.Password),
   (["connection", "postgresql", "slave", "database"],
     .str c.Connection.Postgresql.Slave.Database),
   (["connection", "postgresql", "slave", "max_open"],
     .int c.Connection.Postgresql.Slave.MaxOpen),
   (["connection", "postgresql", "slave", "max_idle"],
     .int c.Connection.Postgresql.Slave.MaxIdle)]

/-- The value that a settings value holds for a key. -/
def Config.get (c : Config) (path : List String) : Option Scalar :=
  c.leaves.lookup path

/-- The environment variable of a key: the dotted key upper-cased, each dot
replaced by an underscore. -/
def envName (w : World) (path : List String) : String :=
  viper.Replace ('.', '_') (w.ToUpper (viper.dotted path))

/-- The value under a key path in a nested map. -/
def lookupPath : List String → List (String × Value) → Option Value
  | [], _ => none
  | key :: rest, entries =>
    match entries.lookup key with
    | none => none
    | some x =>
      if rest.isEmpty then some x
      else match x with
        | Value.map sub => lookupPath rest sub
        | _ => none

/-- Whether a document defines the key: it has a value under the path that is
not itself a map. -/
def definesKey (doc : List (String × Value)) (path : List String) : Bool :=
  match lookupPath path doc with
  | some (Value.map _) => false
  | some _ => true
  | none => false

/-- The config document that `newConfig` reads, when it reads one. -/
def newConfig.document (w : World) (paths : List String) : Option (List (String × Value)) :=
  match (newConfig.viper w paths).ReadInConfig w with
  | (v, none) => some v.config
  | (_, some _) => none

/-- What the decoder makes of the text of an environment variable for a field of
the kind; `none` when it raises an error. -/
def envScalar (parseInt : String → Option Int) : Kind → String → Option Scalar
  | .string, s =>
    match decodeString "" (Value.str s) with
    | (x, []) => some (.str x)
    | _ => none
  | .int, s =>
    match decodeInt parseInt "" (Value.str s) with
    | (x, []) => some (.int x)
    | _ => none
  | .bool, s =>
    match decodeBool "" (Value.str s) with
    | (x, []) => some (.bool x)
    | _ => none

/-- Whether a value is a section that defines the key: a map with a value under
the path that is not itself a map. -/
def definesLeaf (x : Value) (path : List String) : Bool :=
  match x with
  | Value.map sub => definesKey sub path
  | _ => false

/-- The keys of the document's `connection.postgresql` section that match the
field name `Slave` case-insensitively. -/
def slaveKeysOf (doc : List (String × Value)) : List String :=
  match lookupPath ["connection", "postgresql"] doc with
  | some (Value.map pg) => (pg.filter (fun kv => EqualFold kv.1 "Slave")).map (fun kv => kv.1)
  | _ => []

/-- The condition on the sections that the decoder may take for the field `Slave`,
which has no `mapstructure` tag and is matched by name, case-insensitively.  For
a key under `connection.postgresql.slave`: every entry of the document's
`connection.postgresql` section whose key matches `Slave` case-insensitively is
a section that defines the same key, and its variable for that key is the one
of the key under `slave`.  For every other key there is no condition. -/
def slaveSectionsAgree (w : World) (doc : List (String × Value)) (path : List String) : Bool :=
  if path.take 3 = ["connection", "postgresql", "slave"] then
    match lookupPath ["connection", "postgresql"] doc with
    | some (Value.map pg) =>
      pg.all (fun kv => !EqualFold kv.1 "Slave" ||
        (definesLeaf kv.2 (path.drop 3) &&
          envName w (["connection", "postgresql", kv.1] ++ path.drop 3) == envName w path))
    | _ => true
  else true

end config

/-! ## Concrete inputs -/

namespace log

/-- A printer for the concrete inputs: strings and numbers print as themselves,
and `%q` puts a plain string between double quotes. -/
def examplePrinter : fmt.Printer :=
  { verbV := fun a => match a with
      | Any.null => "<nil>"
      | Any.str s => s
      | Any.int i => toString i
      | Any.bool b => if b then "true" else "false"
      | Any.err e => e.Error
      | Any.field k _ => k
      | Any.other r _ => r
    Sprintf := fun template _ => template
    Quote := fun s => "\"" ++ s ++ "\"" }

/-- The adapter of the concrete inputs: a development logger at debug level whose
context is `service=api`. -/
def exampleAdapter : ZapAdapter :=
  { logger := { base := { level := zapcore.DebugLevel, development := true,
                          addCaller := true, addStack := some zapcore.WarnLevel,
                          sampling := none,
                          encoding := "console", encoderConfig := defaultEncoderConfig,
                          context := [⟨"service", Any.str "api"⟩] } } }

/-- A store that holds the adapter above at address 0. -/
def exampleStore : Store := ⟨[exampleAdapter]⟩

/-- The store after `NewLogger` with version `1.4.2` and the zero settings, from
the empty store: a production logger at info level with the JSON base profile
overridden to console encoding. -/
def versionedStore : Store :=
  ⟨[{ logger := { base := { level := zapcore.InfoLevel, development := false,
                            addCaller := true, addStack := some zapcore.ErrorLevel,
                            sampling := some { Initial := 100, Thereafter := 100 },
                            encoding := "console", encoderConfig := defaultEncoderConfig,
                            context := [⟨"version", Any.str "1.4.2"⟩] } } }]⟩

/-- The store after `NewLogger` with no version and the zero settings, from the
empty store. -/
def plainStore : Store :=
  ⟨[{ logger := { base := { level := zapcore.InfoLevel, development := false,
                            addCaller := true, addStack := some zapcore.ErrorLevel,
                            sampling := some { Initial := 100, Thereafter := 100 },
                            encoding := "console", encoderConfig := defaultEncoderConfig,
                            context := [] } } }]⟩

end log

namespace config

/-- A `filepath.Join` for the concrete inputs, on plain relative names. -/
def exampleJoin (dir file : String) : String :=
  if dir = "" ∨ dir = "." then file else dir ++ "/" ++ file

/-- An upper-casing for the concrete inputs: `strings.ToUpper` on text made of
ASCII characters and the long s (U+017F), whose upper case is `S`. -/
def exampleUpper (s : String) : String :=
  String.mk (s.data.map (fun c => if c = Char.ofNat 0x17F then 'S' else c.toUpper))

/-- The config document of the concrete inputs. -/
def exampleDocument : List (String × Value) :=
  [("log", Value.map [("level", Value.str "debug"), ("format", Value.str "console")]),
   ("app_config", Value.map [("env", Value.str "staging"), ("debug", Value.bool true)]),
   ("connection", Value.map
     [("http", Value.map [("timeout", Value.int 30)]),
      ("postgresql", Value.map
        [("master", Value.map [("host", Value.str "db-master"), ("max_open", Value.int 20)]),
         ("slave", Value.map [("host", Value.str "db-slave"), ("max_open", Value.int 10)])])])]

/-- A machine for the concrete inputs: the working directory holds `.env` with
`APP_REGION=base`, the directory `configs` holds `.env` with `APP_REGION=cand`
and `LOG_FORMAT=json` and the file `config.yaml` with the document above; the
process starts with `LOG_LEVEL=warn`, `CONNECTION_HTTP_TIMEOUT=45`,
`CONNECTION_POSTGRESQL_SLAVE_HOST=replica.internal` and an empty
`APP_CONFIG_ENV`.  The error of the decoder only names the fields that failed;
the text that the library prints is not part of the model.  No document of the
concrete inputs has a key with a dot. -/
def exampleWorld : World :=
  { environ := fun name =>
      if name = "LOG_LEVEL" then some "warn"
      else if name = "CONNECTION_HTTP_TIMEOUT" then some "45"
      else if name = "CONNECTION_POSTGRESQL_SLAVE_HOST" then some "replica.internal"
      else if name = "APP_CONFIG_ENV" then some ""
      else none
    filepathJoin := exampleJoin
    absPathify := fun dir => "/srv/app/" ++ dir
    stat := fun path => path = ".env" ∨ path = "configs/.env"
    readEnvFile := fun path =>
      if path = ".env" then some (fun name => if name = "APP_REGION" then some "base" else none)
      else if path = "configs/.env" then
        some (fun name =>
          if name = "APP_REGION" then some "cand"
          else if name = "LOG_FORMAT" then some "json" else none)
      else none
    searchInPath := fun dir =>
      if dir = "/srv/app/configs" then some "/srv/app/configs/config.yaml" else none
    readConfig := fun file =>
      if file = "/srv/app/configs/config.yaml" then .ok exampleDocument
      else .error (GoError.base ("open " ++ file ++ ": no such file or directory"))
    ParseInt := fun s => if s = "45" then some 45 else none
    ToUpper := exampleUpper
    decodeError := fun failed => GoError.base ("decoding failed: " ++ ", ".intercalate failed)
    dottedSettings := fun _ _ => [] }

/-- A machine without any config file. -/
def bareWorld : World :=
  { exampleWorld with searchInPath := fun _ => none }

/-- A machine whose `configs/config.yaml` is not well-formed YAML. -/
def malformedWorld : World :=
  { exampleWorld with
    readConfig := fun _ =>
      .error (GoError.base
        "While parsing config: yaml: line 2: mapping values are not allowed in this context") }

/-- The long s (U+017F), which case folding identifies with `s` and `S`. -/
def longS : String := String.mk [Char.ofNat 0x17F]

/-- A machine whose config file has, in `connection.postgresql`, the sections
`master` and `slave` and two sections spelt with the long s, listed before the
plain ones or after them. -/
def foldWorld (longFirst : Bool) : World :=
  { exampleWorld with
    environ := fun _ => none
    readConfig := fun _ =>
      let plain : List (String × Value) :=
        [("master", Value.map [("host", Value.str "db-master")]),
         ("slave", Value.map [("host", Value.str "db-slave")])]
      let long : List (String × Value) :=
        [("ma" ++ longS ++ "ter", Value.map [("host", Value.str "elsewhere")]),
         (longS ++ "lave", Value.map [("host", Value.str "elsewhere")])]
      .ok [("connection", Value.map
        [("postgresql", Value.map (if longFirst then long ++ plain else plain ++ long))])] }

/-- The machine of the concrete inputs with `CONNECTION_HTTP_TIMEOUT=soon`. -/
def unconvertibleWorld : World :=
  { exampleWorld with
    environ := fun name => if name = "CONNECTION_HTTP_TIMEOUT" then some "soon" else none }

/-- A document that has, before the section `slave`, a section spelt with the
long s. -/
def clashDocument : List (String × Value) :=
  [("connection", Value.map [("postgresql", Value.map
    [(longS ++ "lave", Value.map [("port", Value.str "6432")]),
     ("slave", Value.map [("host", Value.str "db-slave")])])])]

/-- A machine with `CONNECTION_POSTGRESQL_SLAVE_HOST=replica.internal` whose
config file holds the document above. -/
def clashWorld : World :=
  { exampleWorld with
    environ := fun name =>
      if name = "CONNECTION_POSTGRESQL_SLAVE_HOST" then some "replica.internal" else none
    readConfig := fun _ => .ok clashDocument }

end config

/-! ## Theorems: package `log` -/

namespace log

open zapcore

/-! ### Auxiliary facts -/

theorem Store.deref_alloc_new (σ : Store) (z : ZapAdapter) :
    (σ.alloc z).1.deref (σ.alloc z).2 = some z := by
  simp [Store.alloc, Store.deref]

theorem Store.deref_alloc_old {σ : Store} {h : Handle} {a : ZapAdapter} (z : ZapAdapter)
    (ha : σ.deref h = some a) : (σ.alloc z).1.deref h = some a := by
  simp only [Store.deref] at ha
  have hlt : h < σ.objects.length := by
    by_contra hge
    rw [List.getElem?_eq_none (Nat.le_of_not_lt hge)] at ha
    cases ha
  simp only [Store.alloc, Store.deref]
  rw [List.getElem?_append_left hlt]
  exact ha

theorem Store.alloc_fresh (σ : Store) (z : ZapAdapter) : σ.deref (σ.alloc z).2 = none := by
  simp [Store.alloc, Store.deref]

theorem Store.alloc_ne {σ : Store} {h : Handle} {a : ZapAdapter} (z : ZapAdapter)
    (ha : σ.deref h = some a) : (σ.alloc z).2 ≠ h := by
  intro he
  have := Store.alloc_fresh σ z
  rw [he, ha] at this
  cases this

theorem Build_ok {p : fmt.Printer} {registered : String → Bool} {cfg : zap.Config}
    {logger : zap.Logger} (hb : cfg.Build p registered = .ok logger) :
    logger.encoding = cfg.Encoding ∧ logger.context = cfg.InitialFields ∧
      some logger.level = cfg.Level := by
  unfold zap.Config.Build at hb
  split at hb
  · cases hb
  · split at hb
    · cases hb
    · split at hb
      · cases hb
      · split at hb
        · cases hb
        · rename_i lvl hl
          cases hb
          exact ⟨rfl, rfl, hl.symm⟩

theorem zapConfig_Encoding (c : config.Config) : (NewLogger.zapConfig c).Encoding =
    (if c.Log.Format = "" then "console" else c.Log.Format) := by
  unfold NewLogger.zapConfig
  by_cases hf : c.Log.Format = "" <;> simp [hf]

theorem NewLogger_ok {p : fmt.Printer} {registered : String → Bool} {version : String}
    {σ σ1 : Store} {conf : config.Config} {h : Handle}
    (hok : NewLogger p registered version σ conf = .ok (σ1, h)) :
    ∃ logger, (NewLogger.zapConfig conf).Build p registered = .ok logger ∧
      σ1 = (σ.alloc ⟨zap.Logger.Sugar
        (if version ≠ "" then logger.With [zap.fieldString "version" version] else logger)⟩).1 ∧
      h = (σ.alloc ⟨zap.Logger.Sugar
        (if version ≠ "" then logger.With [zap.fieldString "version" version] else logger)⟩).2
      := by
  unfold NewLogger at hok
  cases hb : (NewLogger.zapConfig conf).Build p registered with
  | error e => rw [hb] at hok; cases hok
  | ok logger =>
    rw [hb] at hok
    simp only [Except.ok.injEq] at hok
    exact ⟨logger, rfl, by rw [hok], by rw [hok]⟩

theorem With_context (l : zap.Logger) (fields : List Field) :
    (l.With fields).context = l.context ++ fields := by
  unfold zap.Logger.With
  cases fields with
  | nil => simp
  | cons f fs => simp

theorem args_eq_flatMap (visited : Fields) :
    WithFields.args visited = visited.flatMap (fun kv => [Any.str kv.1, kv.2]) := by
  have gen : ∀ (vs : Fields) (acc : List Any),
      vs.foldl (fun args kv => args ++ [Any.str kv.1, kv.2]) acc =
        acc ++ vs.flatMap (fun kv => [Any.str kv.1, kv.2]) := by
    intro vs
    induction vs with
    | nil => intro acc; simp
    | cons kv rest ih => intro acc; simp [List.foldl_cons, ih, List.append_assoc]
  simpa [WithFields.args] using gen visited []

theorem args_length (visited : Fields) :
    (WithFields.args visited).length = 2 * visited.length := by
  rw [args_eq_flatMap]
  induction visited with
  | nil => simp
  | cons kv rest ih =>
    simp only [List.flatMap_cons, List.length_append, List.length_cons, List.length_nil, ih]
    omega

theorem sweetenLoop_pairs (seen : Bool) (visited : Fields) :
    zap.sweetenLoop seen (visited.flatMap (fun kv => [Any.str kv.1, kv.2])) =
      visited.map (fun kv => (⟨kv.1, kv.2⟩ : Field)) := by
  induction visited with
  | nil => simp [zap.sweetenLoop]
  | cons kv rest ih =>
    simp only [List.flatMap_cons, List.cons_append, List.nil_append, List.map_cons]
    rw [zap.sweetenLoop, ih]

theorem sweetenFields_args (visited : Fields) :
    zap.sweetenFields (WithFields.args visited) =
      visited.map (fun kv => (⟨kv.1, kv.2⟩ : Field)) := by
  rw [args_eq_flatMap]
  exact sweetenLoop_pairs false visited

theorem sweetenFields_pair (key : String) (value : Any) :
    zap.sweetenFields [Any.str key, value] = [⟨key, value⟩] := by
  simp [zap.sweetenFields, zap.sweetenLoop]

/-- Every deriving call allocates one adapter whose logger is the receiver's
`With` of some argument list. -/
theorem derived_frame {σ : Store} {h : Handle} {z : ZapAdapter} (args : List Any)
    (hz : σ.deref h = some z) :
    ∃ σ1 h1, (σ.deref h).map (fun a => σ.alloc { logger := a.logger.With args }) = some (σ1, h1) ∧
      h1 ≠ h ∧ σ.deref h1 = none ∧ σ1.deref h = some z ∧
      σ1.deref h1 = some { logger := z.logger.With args } := by
  refine ⟨(σ.alloc { logger := z.logger.With args }).1,
    (σ.alloc { logger := z.logger.With args }).2, ?_, ?_, ?_, ?_, ?_⟩
  · rw [hz]; rfl
  · exact Store.alloc_ne _ hz
  · exact Store.alloc_fresh _ _
  · exact Store.deref_alloc_old _ hz
  · exact Store.deref_alloc_new _ _

theorem derive_keeps_context : ∀ (ops : List Derivation) (σ : Store) (h : Handle)
    (z : ZapAdapter), σ.deref h = some z →
    ∃ σ2 h2 z2, derive σ h ops = some (σ2, h2) ∧ σ2.deref h2 = some z2 ∧
      ∀ f ∈ z.logger.base.context, f ∈ z2.logger.base.context := by
  intro ops
  induction ops with
  | nil => intro σ h z hz; exact ⟨σ, h, z, rfl, hz, fun f hf => hf⟩
  | cons op rest ih =>
    intro σ h z hz
    have step : ∀ args : List Any,
        ∃ σ2 h2 z2,
          ((σ.deref h).map (fun a => σ.alloc { logger := a.logger.With args })).bind
            (fun r => derive r.1 r.2 rest) = some (σ2, h2) ∧ σ2.deref h2 = some z2 ∧
          ∀ f ∈ z.logger.base.context, f ∈ z2.logger.base.context := by
      intro args
      obtain ⟨σ1, h1, hr, -, -, -, hnew⟩ := derived_frame args hz
      obtain ⟨σ2, h2, z2, hd, hz2, hsub⟩ := ih σ1 h1 _ hnew
      refine ⟨σ2, h2, z2, ?_, hz2, ?_⟩
      · rw [hr]; exact hd
      · intro f hf
        apply hsub
        simp only [zap.SugaredLogger.With, With_context]
        exact List.mem_append_left _ hf
    cases op with
    | field key value => exact step _
    | fields visited => exact step _
    | error err => exact step _

theorem push_eq_append (buf : String) (c : Char) : buf.push c = buf ++ String.mk [c] := by
  apply String.ext
  simp

theorem printlnLoop_eq_go (p : fmt.Printer) : ∀ (rest : List Any) (n : Nat) (acc : String),
    fmt.printlnLoop p (n + 1) acc rest = String.intercalate.go acc " " (rest.map p.verbV) := by
  intro rest
  induction rest with
  | nil => intro n acc; simp [fmt.printlnLoop, String.intercalate.go]
  | cons a rest ih =>
    intro n acc
    simp only [fmt.printlnLoop, List.map_cons, String.intercalate.go]
    rw [ih]
    simp only [Nat.succ_pos, gt_iff_lt, ↓reduceIte, push_eq_append]

/-- The code of `fmt.Sprintln` against the words of the specification. -/
theorem Sprintln_eq_lineMessage (p : fmt.Printer) (args : List Any) :
    fmt.Sprintln p args = lineMessage p args := by
  unfold fmt.Sprintln lineMessage
  rw [push_eq_append]
  cases args with
  | nil => rfl
  | cons a rest =>
    simp only [fmt.printlnLoop, List.map_cons, String.intercalate]
    rw [printlnLoop_eq_go]
    simp

theorem log_enabled (p : fmt.Printer) (s : zap.SugaredLogger) (sampled : Bool)
    (c : zap.Caller) (lvl : zapcore.Level) (msg : String)
    (hl : s.base.level ≤ lvl) (hs : s.base.sampling = none ∨ sampled = true) :
    (s.log p sampled c lvl "" [Any.str msg] []).written =
      [⟨lvl, msg, s.base.context, if s.base.addCaller then some c else none,
        s.base.stackAt lvl⟩] := by
  have hen : s.base.Enabled lvl = true := by simp [zap.Logger.Enabled, hl]
  unfold zap.SugaredLogger.log
  rcases hs with hs | hs <;>
    simp [hen, hs, zap.getMessage, zap.sweetenFields, zap.sweetenLoop]

theorem log_disabled (p : fmt.Printer) (s : zap.SugaredLogger) (sampled : Bool)
    (c : zap.Caller) (lvl : zapcore.Level) (template : String) (args : List Any)
    (hl : lvl < s.base.level) :
    (s.log p sampled c lvl template args []).written = [] := by
  have hen : s.base.Enabled lvl = false := by
    simp only [zap.Logger.Enabled, decide_eq_false_iff_not]
    exact not_le.mpr hl
  unfold zap.SugaredLogger.log
  split
  · rfl
  · simp [hen]

/-- Two log calls that differ in the call site only write records that differ in
the call site only. -/
theorem log_withoutCaller (p : fmt.Printer) (s : zap.SugaredLogger) (sampled : Bool)
    (c1 c2 : zap.Caller) (lvl : zapcore.Level) (template : String) (args context : List Any) :
    withoutCaller (s.log p sampled c1 lvl template args context) =
      withoutCaller (s.log p sampled c2 lvl template args context) := by
  unfold withoutCaller zap.SugaredLogger.log
  split
  · rfl
  · simp only [zap.Effect.mk.injEq, and_true]
    split <;> rfl

/-- C1: `parseLogLevel` maps each of the six supported names to its own level and
every other string, such as the empty string, `DEBUG` or `warning`, to the info
level. -/
theorem parseLogLevel_levels :
    parseLogLevel "debug" = DebugLevel ∧ parseLogLevel "info" = InfoLevel ∧
    parseLogLevel "warn" = WarnLevel ∧ parseLogLevel "error" = ErrorLevel ∧
    parseLogLevel "fatal" = FatalLevel ∧ parseLogLevel "panic" = PanicLevel ∧
    parseLogLevel "" = InfoLevel ∧ parseLogLevel "DEBUG" = InfoLevel ∧
    parseLogLevel "warning" = InfoLevel ∧
    (∀ s : String, parseLogLevel s = ((levelNames.lookup s).getD InfoLevel)) ∧
    (∀ s : String, s ∉ levelNames.map Prod.fst → parseLogLevel s = InfoLevel) := by
  refine ⟨by decide, by decide, by decide, by decide, by decide, by decide, by decide,
    by decide, by decide, ?_, ?_⟩
  · intro s
    unfold parseLogLevel levelNames
    by_cases h1 : s = "debug"
    · subst h1; decide
    by_cases h2 : s = "info"
    · subst h2; decide
    by_cases h3 : s = "warn"
    · subst h3; decide
    by_cases h4 : s = "error"
    · subst h4; decide
    by_cases h5 : s = "fatal"
    · subst h5; decide
    by_cases h6 : s = "panic"
    · subst h6; decide
    have e1 : (s == "debug") = false := by simp [h1]
    have e2 : (s == "info") = false := by simp [h2]
    have e3 : (s == "warn") = false := by simp [h3]
    have e4 : (s == "error") = false := by simp [h4]
    have e5 : (s == "fatal") = false := by simp [h5]
    have e6 : (s == "panic") = false := by simp [h6]
    simp [List.lookup, h1, h2, h3, h4, h5, h6, e1, e2, e3, e4, e5, e6]
  · intro s hs
    simp [levelNames] at hs
    obtain ⟨h1, h2, h3, h4, h5, h6⟩ := hs
    simp [parseLogLevel, h1, h2, h3, h4, h5, h6]


/-- C6: the encoding that `NewLogger` hands to `Build` is `Log.Format` when that is
not empty and `console` when it is, whatever the debug flag selects as base
profile (whose own encodings, `console` and `json`, are both overridden).  With
that encoding in the encoder registry `NewLogger` succeeds and the logger behind
the handle it returns has exactly that encoding; with that encoding missing from
the registry `NewLogger` fails with the error of `Build` for that encoding name,
wrapped. -/
theorem NewLogger_encoding (p : fmt.Printer) (registered : String → Bool) (version : String)
    (σ : Store) (conf : config.Config) :
    (NewLogger.zapConfig conf).Encoding =
        (if conf.Log.Format = "" then "console" else conf.Log.Format) ∧
    (NewLogger.zapConfig { conf with AppConfig := { conf.AppConfig with Debug := true } }).Encoding =
      (NewLogger.zapConfig { conf with AppConfig := { conf.AppConfig with Debug := false } }).Encoding ∧
    zap.NewDevelopmentConfig.Encoding = "console" ∧ zap.NewProductionConfig.Encoding = "json" ∧
    (∀ σ1 h, NewLogger p registered version σ conf = .ok (σ1, h) →
      (σ1.deref h).map (fun z => z.logger.base.encoding) =
        some (if conf.Log.Format = "" then "console" else conf.Log.Format)) ∧
    (registered (if conf.Log.Format = "" then "console" else conf.Log.Format) = true →
      ∃ σ1 h z, NewLogger p registered version σ conf = .ok (σ1, h) ∧ σ1.deref h = some z ∧
        z.logger.base.encoding = (if conf.Log.Format = "" then "console" else conf.Log.Format)) ∧
    (registered (if conf.Log.Format = "" then "console" else conf.Log.Format) = false →
      NewLogger p registered version σ conf =
        .error (fmt.Errorf_w "logger.NewLogger: failed to build zap logger: "
          (GoError.base ("no encoder registered for name " ++
            p.Quote (if conf.Log.Format = "" then "console" else conf.Log.Format))))) := by
  have hne : (NewLogger.zapConfig conf).Encoding ≠ "" := by
    rw [zapConfig_Encoding]
    by_cases hf : conf.Log.Format = "" <;> simp [hf]
  have hlvl : (NewLogger.zapConfig conf).Level = some (parseLogLevel conf.Log.Level) := by
    unfold NewLogger.zapConfig
    rfl
  have htime : ¬ ((NewLogger.zapConfig conf).EncoderConfig.TimeKey ≠ "" ∧
      (NewLogger.zapConfig conf).EncoderConfig.EncodeTime = none) := by
    have he : (NewLogger.zapConfig conf).EncoderConfig = defaultEncoderConfig := by
      unfold NewLogger.zapConfig
      rfl
    rw [he]
    simp [defaultEncoderConfig]
  have hget : ∀ σ1 h, NewLogger p registered version σ conf = .ok (σ1, h) →
      (σ1.deref h).map (fun z => z.logger.base.encoding) =
        some (if conf.Log.Format = "" then "console" else conf.Log.Format) := by
    intro σ1 h hok
    obtain ⟨logger, hb, rfl, rfl⟩ := NewLogger_ok hok
    obtain ⟨henc, -, -⟩ := Build_ok hb
    rw [Store.deref_alloc_new]
    simp only [Option.map_some', zap.Logger.Sugar]
    rw [← zapConfig_Encoding conf, ← henc]
    by_cases hv : version = "" <;> simp [hv, zap.Logger.With, zap.fieldString]
  refine ⟨zapConfig_Encoding conf, ?_, rfl, rfl, hget, ?_, ?_⟩
  · rw [zapConfig_Encoding, zapConfig_Encoding]
  · intro hreg
    rw [← zapConfig_Encoding conf] at hreg
    have hb : ∃ logger, (NewLogger.zapConfig conf).Build p registered = .ok logger := by
      unfold zap.Config.Build
      rw [if_neg htime, if_neg hne, hreg, hlvl]
      exact ⟨_, rfl⟩
    obtain ⟨logger, hb⟩ := hb
    have hok : ∃ σ1 h, NewLogger p registered version σ conf = .ok (σ1, h) := by
      unfold NewLogger
      rw [hb]
      exact ⟨_, _, rfl⟩
    obtain ⟨σ1, h, hok⟩ := hok
    have hmap := hget σ1 h hok
    cases hd : σ1.deref h with
    | none => rw [hd] at hmap; cases hmap
    | some z =>
      rw [hd] at hmap
      simp only [Option.map_some', Option.some.injEq] at hmap
      exact ⟨σ1, h, z, hok, hd, hmap⟩
  · intro hreg
    rw [← zapConfig_Encoding conf] at hreg ⊢
    unfold NewLogger zap.Config.Build
    rw [if_neg htime, if_neg hne, hreg]
    rfl

/-- C6, at concrete settings: with the registry of a program that registers no
encoder, the zero settings give a logger with the encoding `console`, the format
`json` gives one with the encoding `json`, both also under the debug flag, and
the format `xml` makes `NewLogger` fail. -/
theorem NewLogger_encoding_witness :
    (∃ σ1 h z, NewLogger examplePrinter zap.defaultRegistry "" ⟨[]⟩ {} = .ok (σ1, h) ∧
      σ1.deref h = some z ∧ z.logger.base.encoding = "console") ∧
    (∃ σ1 h z, NewLogger examplePrinter zap.defaultRegistry "" ⟨[]⟩
        { Log := { Format := "json" }, AppConfig := { Debug := true } } = .ok (σ1, h) ∧
      σ1.deref h = some z ∧ z.logger.base.encoding = "json") ∧
    NewLogger examplePrinter zap.defaultRegistry "" ⟨[]⟩ { Log := { Format := "xml" } } =
      .error (fmt.Errorf_w "logger.NewLogger: failed to build zap logger: "
        (GoError.base "no encoder registered for name \"xml\"")) :=
  ⟨(NewLogger_encoding examplePrinter zap.defaultRegistry "" ⟨[]⟩ {}).2.2.2.2.2.1 (by decide),
   (NewLogger_encoding examplePrinter zap.defaultRegistry "" ⟨[]⟩
      { Log := { Format := "json" }, AppConfig := { Debug := true } }).2.2.2.2.2.1 (by decide),
   (NewLogger_encoding examplePrinter zap.defaultRegistry "" ⟨[]⟩
      { Log := { Format := "xml" } }).2.2.2.2.2.2 (by decide)⟩


/-- C4: `WithField`, `WithFields` and `WithError` each return a handle that did not
exist before and leave the receiver as it was: its adapter and its context are
the same, every logging call through it has the same effect as before, and the
records it writes carry exactly the context it had, so no field that it lacked
before. -/
theorem With_leaves_receiver_unchanged (p : fmt.Printer) (σ : Store) (h : Handle)
    (z : ZapAdapter) (key : String) (value : Any) (visited : Fields) (err : Option GoError)
    (hz : σ.deref h = some z) :
    ∀ r ∈ [WithField σ h key value, WithFields σ h visited, WithError σ h err],
      ∃ σ1 h1, r = some (σ1, h1) ∧ h1 ≠ h ∧ σ.deref h1 = none ∧
        σ1.deref h = some z ∧ σ1.context h = σ.context h ∧
        (∀ f, withAdapter σ1 h f = withAdapter σ h f) ∧
        (∀ sampled c lvl template args eff,
          withAdapter σ1 h (fun l => l.log p sampled c lvl template args []) = some eff →
          ∀ rec ∈ eff.written, rec.context = z.logger.base.context ∧
            ∀ fld, fld ∉ z.logger.base.context → fld ∉ rec.context) := by
  have main : ∀ args : List Any,
      ∃ σ1 h1, (σ.deref h).map (fun a => σ.alloc { logger := a.logger.With args }) = some (σ1, h1) ∧
        h1 ≠ h ∧ σ.deref h1 = none ∧
        σ1.deref h = some z ∧ σ1.context h = σ.context h ∧
        (∀ f, withAdapter σ1 h f = withAdapter σ h f) ∧
        (∀ sampled c lvl template args eff,
          withAdapter σ1 h (fun l => l.log p sampled c lvl template args []) = some eff →
          ∀ rec ∈ eff.written, rec.context = z.logger.base.context ∧
            ∀ fld, fld ∉ z.logger.base.context → fld ∉ rec.context) := by
    intro args
    obtain ⟨σ1, h1, hr, hne, hfresh, hold, -⟩ := derived_frame args hz
    refine ⟨σ1, h1, hr, hne, hfresh, hold, ?_, ?_, ?_⟩
    · simp [Store.context, hold, hz]
    · intro f; simp [withAdapter, hold, hz]
    · intro sampled c lvl template args eff heff rec hrec
      simp only [withAdapter, hold, Option.map_some', Option.some.injEq] at heff
      subst heff
      have hctx : rec.context = z.logger.base.context := by
        unfold zap.SugaredLogger.log at hrec
        split at hrec
        · simp at hrec
        · simp only at hrec
          split at hrec
          · simp only [List.mem_singleton] at hrec
            subst hrec
            simp [zap.sweetenFields, zap.sweetenLoop]
          · simp at hrec
      exact ⟨hctx, fun fld hfld => hctx ▸ hfld⟩
  intro r hr
  simp only [List.mem_cons, List.mem_singleton, List.not_mem_nil, or_false] at hr
  rcases hr with rfl | rfl | rfl
  · exact main _
  · exact main _
  · exact main _

/-- C4, at a concrete store: a handle with context `service=api`, from which
`request=7` is derived. -/
theorem With_leaves_receiver_unchanged_witness :
    exampleStore.deref 0 = some exampleAdapter ∧
    ∀ r ∈ [WithField exampleStore 0 "request" (Any.int 7),
           WithFields exampleStore 0 [("a", Any.int 1), ("b", Any.int 2)],
           WithError exampleStore 0 (some (GoError.base "boom"))],
      ∃ σ1 h1, r = some (σ1, h1) ∧ h1 ≠ 0 ∧ exampleStore.deref h1 = none ∧
        σ1.deref 0 = some exampleAdapter ∧ σ1.context 0 = exampleStore.context 0 ∧
        (∀ f, withAdapter σ1 0 f = withAdapter exampleStore 0 f) ∧
        (∀ sampled c lvl template args eff,
          withAdapter σ1 0 (fun l => l.log examplePrinter sampled c lvl template args []) = some eff →
          ∀ rec ∈ eff.written, rec.context = exampleAdapter.logger.base.context ∧
            ∀ fld, fld ∉ exampleAdapter.logger.base.context → fld ∉ rec.context) :=
  ⟨by decide, With_leaves_receiver_unchanged examplePrinter exampleStore 0 exampleAdapter
    "request" (Any.int 7) [("a", Any.int 1), ("b", Any.int 2)] (some (GoError.base "boom"))
    (by decide)⟩


/-- C5: when `NewLogger` succeeds with a non-empty `SemanticVersion`, the handle it
returns and every handle reached from it by `WithField`, `WithFields` and
`WithError` carry the field `version` with exactly that value; with an empty
`SemanticVersion` the returned handle carries no field named `version`. -/
theorem version_field (p : fmt.Printer) (registered : String → Bool) (version : String)
    (σ σ1 : Store) (conf : config.Config) (h : Handle)
    (hok : NewLogger p registered version σ conf = .ok (σ1, h)) :
    (version ≠ "" → ∀ ops : List Derivation, ∃ σ2 h2 ctx,
        derive σ1 h ops = some (σ2, h2) ∧ σ2.context h2 = some ctx ∧
        (⟨"version", Any.str version⟩ : Field) ∈ ctx) ∧
    (version = "" → ∃ ctx, σ1.context h = some ctx ∧ ∀ f ∈ ctx, f.key ≠ "version") := by
  obtain ⟨logger, hb, rfl, rfl⟩ := NewLogger_ok hok
  obtain ⟨-, hctx, -⟩ := Build_ok hb
  have hinit : logger.context = [] := by
    rw [hctx]; unfold NewLogger.zapConfig
    by_cases hd : conf.AppConfig.Debug <;> by_cases hf : conf.Log.Format = "" <;>
      simp [hd, hf, zap.NewDevelopmentConfig, zap.NewProductionConfig]
  constructor
  · intro hv ops
    obtain ⟨σ2, h2, z2, hd, hz2, hsub⟩ :=
      derive_keeps_context ops _ _ _ (Store.deref_alloc_new σ _)
    refine ⟨σ2, h2, z2.logger.base.context, hd, ?_, ?_⟩
    · simp [Store.context, hz2]
    · apply hsub
      simp [hv, zap.Logger.Sugar, With_context, zap.fieldString]
  · intro hv
    refine ⟨[], ?_, by simp⟩
    simp [Store.context, Store.deref_alloc_new, hv, zap.Logger.Sugar, hinit]

/-- C5, at a concrete call: version `1.4.2` and the zero settings, from the empty
store. -/
theorem version_field_witness :
    NewLogger examplePrinter zap.defaultRegistry "1.4.2" ⟨[]⟩ {} = .ok (versionedStore, 0) ∧
    ("1.4.2" ≠ "" → ∀ ops : List Derivation, ∃ σ2 h2 ctx,
        derive versionedStore 0 ops = some (σ2, h2) ∧ σ2.context h2 = some ctx ∧
        (⟨"version", Any.str "1.4.2"⟩ : Field) ∈ ctx) ∧
    ("1.4.2" = "" → ∃ ctx, versionedStore.context 0 = some ctx ∧ ∀ f ∈ ctx, f.key ≠ "version") :=
  ⟨by rfl,
    version_field examplePrinter zap.defaultRegistry "1.4.2" ⟨[]⟩ versionedStore {} 0 (by rfl)⟩

/-- C7: for every order `visited` in which the entries of the map `m` are
iterated, the argument list built by `WithFields` has length `2 * len(m)` and is
the sequence of the key and value of each entry visited, and the handle returned
carries the receiver's context followed by one field per entry; so every entry
of `m` is in it with its value, next to every field of the receiver. -/
theorem WithFields_context (σ : Store) (h : Handle) (z : ZapAdapter) (m visited : Fields)
    (hz : σ.deref h = some z) (hperm : visited.Perm m) :
    (WithFields.args visited).length = 2 * m.length ∧
    WithFields.args visited = visited.flatMap (fun kv => [Any.str kv.1, kv.2]) ∧
    ∃ σ1 h1 ctx, WithFields σ h visited = some (σ1, h1) ∧ σ1.context h1 = some ctx ∧
      ctx = z.logger.base.context ++ visited.map (fun kv => (⟨kv.1, kv.2⟩ : Field)) ∧
      (∀ kv ∈ m, (⟨kv.1, kv.2⟩ : Field) ∈ ctx) ∧
      (∀ f ∈ z.logger.base.context, f ∈ ctx) := by
  refine ⟨?_, args_eq_flatMap visited, ?_⟩
  · rw [args_length, hperm.length_eq]
  · obtain ⟨σ1, h1, hr, -, -, -, hnew⟩ := derived_frame (WithFields.args visited) hz
    refine ⟨σ1, h1, _, hr, ?_, rfl, ?_, ?_⟩
    · simp [Store.context, hnew, zap.SugaredLogger.With, With_context, sweetenFields_args]
    · intro kv hkv
      apply List.mem_append_right
      exact List.mem_map.mpr ⟨kv, hperm.mem_iff.mpr hkv, rfl⟩
    · intro f hf
      exact List.mem_append_left _ hf

/-- C7, at the map `a=1, b=2` iterated as `b, a`, on the concrete store. -/
theorem WithFields_context_witness :
    exampleStore.deref 0 = some exampleAdapter ∧
    [("b", Any.int 2), ("a", Any.int 1)].Perm [("a", Any.int 1), ("b", Any.int 2)] ∧
    (WithFields.args [("b", Any.int 2), ("a", Any.int 1)]).length = 2 * 2 ∧
    ∃ σ1 h1 ctx, WithFields exampleStore 0 [("b", Any.int 2), ("a", Any.int 1)] = some (σ1, h1) ∧
      σ1.context h1 = some ctx ∧
      (⟨"a", Any.int 1⟩ : Field) ∈ ctx ∧ (⟨"b", Any.int 2⟩ : Field) ∈ ctx ∧
      (⟨"service", Any.str "api"⟩ : Field) ∈ ctx :=
  have hp : [("b", Any.int 2), ("a", Any.int 1)].Perm [("a", Any.int 1), ("b", Any.int 2)] :=
    List.Perm.swap _ _ _
  have key := WithFields_context exampleStore 0 exampleAdapter
    [("a", Any.int 1), ("b", Any.int 2)] [("b", Any.int 2), ("a", Any.int 1)] (by decide) hp
  ⟨by decide, hp, key.1,
    key.2.2.elim fun σ1 e1 => e1.elim fun h1 e2 => e2.elim fun ctx hc =>
      ⟨σ1, h1, ctx, hc.1, hc.2.1, hc.2.2.2.1 ("a", Any.int 1) (by decide),
        hc.2.2.2.1 ("b", Any.int 2) (by decide),
        hc.2.2.2.2 ⟨"service", Any.str "api"⟩ (by decide)⟩⟩


/-- C10 as stated fails: on the logger that `NewLogger` builds from the zero
settings (info level), `Debugln` writes no record at all; and on that logger the
record that `Println` writes is not the record that `Infoln` writes, because each
names the line of its own call as call site. -/
theorem Debugln_below_level_writes_nothing :
    NewLogger examplePrinter zap.defaultRegistry "" ⟨[]⟩ {} = .ok (plainStore, 0) ∧
    (DebugLevel, site 171 "Debugln", Debugln) ∈ lineVariants ∧
    Debugln examplePrinter plainStore 0 true [Any.str "starting", Any.int 3] =
      some ⟨[], zap.Terminal.proceed⟩ ∧
    (¬ ∃ eff rec, Debugln examplePrinter plainStore 0 true [Any.str "starting", Any.int 3] = some eff ∧
        eff.written = [rec]) ∧
    Println examplePrinter plainStore 0 true [Any.str "starting", Any.int 3] =
      some ⟨[⟨InfoLevel, "starting 3\n", [], some (site 167 "Println"), false⟩],
        zap.Terminal.proceed⟩ ∧
    Infoln examplePrinter plainStore 0 true [Any.str "starting", Any.int 3] =
      some ⟨[⟨InfoLevel, "starting 3\n", [], some (site 175 "Infoln"), false⟩],
        zap.Terminal.proceed⟩ ∧
    Println examplePrinter plainStore 0 true [Any.str "starting", Any.int 3] ≠
      Infoln examplePrinter plainStore 0 true [Any.str "starting", Any.int 3] := by
  refine ⟨by rfl, by simp [lineVariants], by decide, ?_, by decide, by decide, by decide⟩
  rintro ⟨eff, rec, he, hw⟩
  have h0 : Debugln examplePrinter plainStore 0 true [Any.str "starting", Any.int 3] =
      some ⟨[], zap.Terminal.proceed⟩ := by decide
  rw [h0] at he
  cases he
  cases hw

/-- On a logger with a sampler, an entry that the sampler drops is not written,
whatever its level: the production profile that `NewLogger` selects without the
debug flag installs one. -/
theorem dropped_entry_is_not_written :
    NewLogger examplePrinter zap.defaultRegistry "" ⟨[]⟩ {} = .ok (plainStore, 0) ∧
    Infoln examplePrinter plainStore 0 false [Any.str "tick"] =
      some ⟨[], zap.Terminal.proceed⟩ ∧
    Infoln examplePrinter plainStore 0 true [Any.str "tick"] =
      some ⟨[⟨InfoLevel, "tick\n", [], some (site 175 "Infoln"), false⟩],
        zap.Terminal.proceed⟩ := by
  refine ⟨by rfl, by decide, by decide⟩

/-- C10, amended: for each of the six line variants, at its severity `L`: when `L`
is at or above the minimum level of the handle and the sampler, if the logger has
one, lets the entry through, exactly one record is written, at severity `L`, with
the operands joined by single spaces and ended by one newline as message, the
context of the handle and, when the logger annotates call sites, the line of
`log.go` on which the variant calls the backend; when `L` is below the minimum
level nothing is written.  `Println` writes at info severity, under the same
conditions, the record that `Infoln` writes but for the call site (line 167, not
line 175): with the call sites set aside the two calls have the same effect. -/
theorem line_variants (p : fmt.Printer) (σ : Store) (h : Handle) (z : ZapAdapter)
    (sampled : Bool) (args : List Any) (L : zapcore.Level) (c : zap.Caller)
    (m : fmt.Printer → Store → Handle → Bool → List Any → Option zap.Effect)
    (hz : σ.deref h = some z) (hm : (L, c, m) ∈ lineVariants) :
    (z.logger.base.level ≤ L → (z.logger.base.sampling = none ∨ sampled = true) →
      ∃ eff, m p σ h sampled args = some eff ∧
        eff.written = [⟨L, lineMessage p args, z.logger.base.context,
          if z.logger.base.addCaller then some c else none, z.logger.base.stackAt L⟩]) ∧
    (L < z.logger.base.level → ∃ eff, m p σ h sampled args = some eff ∧ eff.written = []) ∧
    (z.logger.base.level ≤ InfoLevel → (z.logger.base.sampling = none ∨ sampled = true) →
      ∃ eff, Println p σ h sampled args = some eff ∧
        eff.written = [⟨InfoLevel, lineMessage p args, z.logger.base.context,
          if z.logger.base.addCaller then some (site 167 "Println") else none,
          z.logger.base.stackAt InfoLevel⟩]) ∧
    (InfoLevel < z.logger.base.level →
      ∃ eff, Println p σ h sampled args = some eff ∧ eff.written = []) ∧
    (Println p σ h sampled args).map withoutCaller =
      (Infoln p σ h sampled args).map withoutCaller ∧
    (z.logger.base.addCaller = false →
      Println p σ h sampled args = Infoln p σ h sampled args) ∧
    fmt.Sprintln p args = lineMessage p args := by
  have key : m p σ h sampled args =
      some (z.logger.log p sampled c L "" [Any.str (fmt.Sprintln p args)] []) := by
    simp only [lineVariants, List.mem_cons, Prod.mk.injEq, List.mem_singleton,
      List.not_mem_nil, or_false] at hm
    rcases hm with ⟨rfl, rfl, rfl⟩ | hm
    · simp only [Debugln, withAdapter, hz, Option.map_some']; rfl
    rcases hm with ⟨rfl, rfl, rfl⟩ | hm
    · simp only [Infoln, withAdapter, hz, Option.map_some']; rfl
    rcases hm with ⟨rfl, rfl, rfl⟩ | hm
    · simp only [Warnln, withAdapter, hz, Option.map_some']; rfl
    rcases hm with ⟨rfl, rfl, rfl⟩ | hm
    · simp only [Errorln, withAdapter, hz, Option.map_some']; rfl
    rcases hm with ⟨rfl, rfl, rfl⟩ | ⟨rfl, rfl, rfl⟩
    · simp only [Fatalln, withAdapter, hz, Option.map_some']; rfl
    · simp only [Panicln, withAdapter, hz, Option.map_some']; rfl
  have keyP : Println p σ h sampled args =
      some (z.logger.log p sampled (site 167 "Println") InfoLevel ""
        [Any.str (fmt.Sprintln p args)] []) := by
    simp only [Println, withAdapter, hz, Option.map_some']; rfl
  have keyI : Infoln p σ h sampled args =
      some (z.logger.log p sampled (site 175 "Infoln") InfoLevel ""
        [Any.str (fmt.Sprintln p args)] []) := by
    simp only [Infoln, withAdapter, hz, Option.map_some']; rfl
  refine ⟨?_, ?_, ?_, ?_, ?_, ?_, Sprintln_eq_lineMessage p args⟩
  · intro hl hs
    refine ⟨_, key, ?_⟩
    rw [← Sprintln_eq_lineMessage]
    exact log_enabled p z.logger sampled c _ _ hl hs
  · intro hl
    exact ⟨_, key, log_disabled p z.logger sampled c _ _ _ hl⟩
  · intro hl hs
    refine ⟨_, keyP, ?_⟩
    rw [← Sprintln_eq_lineMessage]
    exact log_enabled p z.logger sampled _ _ _ hl hs
  · intro hl
    exact ⟨_, keyP, log_disabled p z.logger sampled _ _ _ _ hl⟩
  · rw [keyP, keyI]
    simp only [Option.map_some', Option.some.injEq]
    exact log_withoutCaller p z.logger sampled _ _ _ _ _ _
  · intro hc
    rw [keyP, keyI]
    unfold zap.SugaredLogger.log
    simp [hc]

/-- C10, amended, at a concrete call: `Warnln("disk", 93)` on the concrete store
writes the one record `disk 93` and a newline at warn level, from line 179. -/
theorem line_variants_witness :
    exampleStore.deref 0 = some exampleAdapter ∧
    (WarnLevel, site 179 "Warnln", Warnln) ∈ lineVariants ∧
    ∃ eff, Warnln examplePrinter exampleStore 0 false [Any.str "disk", Any.int 93] = some eff ∧
      eff.written = [⟨WarnLevel, "disk 93\n", [⟨"service", Any.str "api"⟩],
        some (site 179 "Warnln"), true⟩] :=
  have hm : (WarnLevel, site 179 "Warnln", Warnln) ∈ lineVariants := by simp [lineVariants]
  ⟨by decide, hm,
    (line_variants examplePrinter exampleStore 0 exampleAdapter false
      [Any.str "disk", Any.int 93] WarnLevel (site 179 "Warnln") Warnln (by decide) hm).1
      (by decide) (Or.inl rfl)⟩

end log

/-! ## Theorems: package `config` -/

namespace config

open mapstructure viper

/-! ### Auxiliary facts -/

theorem AddConfigPath_step (w : World) (v0 : Viper) (d : String) :
    (v0.AddConfigPath w d).configType = v0.configType ∧
    (v0.AddConfigPath w d).automaticEnvApplied = v0.automaticEnvApplied ∧
    (v0.AddConfigPath w d).envKeyReplacer = v0.envKeyReplacer ∧
    (v0.AddConfigPath w d).envPrefix = v0.envPrefix ∧
    (v0.AddConfigPath w d).allowEmptyEnv = v0.allowEmptyEnv ∧
    ∀ p ∈ (v0.AddConfigPath w d).configPaths, p ∈ v0.configPaths ∨ p = w.absPathify d := by
  unfold Viper.AddConfigPath
  by_cases hd : d = ""
  · simp only [hd, ne_eq, not_true_eq_false, ↓reduceIte, true_and]
    intro p hp; exact Or.inl hp
  · by_cases hin : w.absPathify d ∈ v0.configPaths
    · simp only [ne_eq, hd, not_false_eq_true, ↓reduceIte, hin, true_and]
      intro p hp; exact Or.inl hp
    · simp only [ne_eq, hd, not_false_eq_true, ↓reduceIte, hin, List.mem_append,
        List.mem_singleton, true_and]
      intro p hp; exact hp

theorem AddConfigPath_fold (w : World) : ∀ (paths : List String) (v0 : Viper),
    (paths.foldl (fun v path => v.AddConfigPath w path) v0).configType = v0.configType ∧
    (paths.foldl (fun v path => v.AddConfigPath w path) v0).automaticEnvApplied
      = v0.automaticEnvApplied ∧
    (paths.foldl (fun v path => v.AddConfigPath w path) v0).envKeyReplacer = v0.envKeyReplacer ∧
    (paths.foldl (fun v path => v.AddConfigPath w path) v0).envPrefix = v0.envPrefix ∧
    (paths.foldl (fun v path => v.AddConfigPath w path) v0).allowEmptyEnv = v0.allowEmptyEnv ∧
    ∀ p ∈ (paths.foldl (fun v path => v.AddConfigPath w path) v0).configPaths,
      p ∈ v0.configPaths ∨ ∃ d ∈ paths, p = w.absPathify d := by
  intro paths
  induction paths with
  | nil => intro v0; exact ⟨rfl, rfl, rfl, rfl, rfl, fun p hp => Or.inl hp⟩
  | cons d rest ih =>
    intro v0
    simp only [List.foldl_cons]
    obtain ⟨h1, h3, h4, h5, h6, h8⟩ := ih (v0.AddConfigPath w d)
    obtain ⟨g1, g3, g4, g5, g6, g8⟩ := AddConfigPath_step w v0 d
    refine ⟨h1.trans g1, h3.trans g3, h4.trans g4, h5.trans g5, h6.trans g6, ?_⟩
    intro p hp
    rcases h8 p hp with hp | ⟨d', hd', rfl⟩
    · rcases g8 p hp with hp | rfl
      · exact Or.inl hp
      · exact Or.inr ⟨d, List.mem_cons_self _ _, rfl⟩
    · exact Or.inr ⟨d', List.mem_cons_of_mem _ hd', rfl⟩

/-- The settings of the viper that `newConfig` builds. -/
theorem viper_fields (w : World) (paths : List String) :
    (newConfig.viper w paths).configType = "yaml" ∧
    (newConfig.viper w paths).automaticEnvApplied = true ∧
    (newConfig.viper w paths).envKeyReplacer = some ('.', '_') ∧
    (newConfig.viper w paths).envPrefix = "" ∧
    (newConfig.viper w paths).allowEmptyEnv = false ∧
    ∀ p ∈ (newConfig.viper w paths).configPaths, ∃ d ∈ paths, p = w.absPathify d := by
  obtain ⟨h1, -, -, h5, h6, h8⟩ := AddConfigPath_fold w paths
    ((viper.New.SetConfigName "config").SetConfigType "yaml")
  refine ⟨h1, rfl, rfl, h5, h6, ?_⟩
  intro p hp
  rcases h8 p hp with hp | hp
  · simp [viper.New, Viper.SetConfigName, Viper.SetConfigType] at hp
  · exact hp

theorem loadFile_apply (w : World) (env : Environ) (file name : String) :
    (godotenv.loadFile w env file).1 name =
      match env name with
      | some v => some v
      | none => (w.readEnvFile file).bind (fun m => m name) := by
  unfold godotenv.loadFile
  cases hr : w.readEnvFile file with
  | none => cases he : env name <;> simp [he]
  | some m => cases he : env name <;> simp [he]

theorem Load_one (w : World) (env : Environ) (file : String) :
    (godotenv.Load w env [file]).1 = (godotenv.loadFile w env file).1 := by
  simp only [godotenv.Load, List.isEmpty_cons, Bool.false_eq_true, ↓reduceIte, godotenv.loadAll]
  cases h : godotenv.loadFile w env file with
  | mk e ok => cases ok <;> simp [godotenv.loadAll]

theorem Load_default (w : World) (env : Environ) :
    (godotenv.Load w env []).1 = (godotenv.loadFile w env ".env").1 := by
  simp only [godotenv.Load, List.isEmpty_nil, ↓reduceIte, godotenv.loadAll]
  cases h : godotenv.loadFile w env ".env" with
  | mk e ok => cases ok <;> simp [godotenv.loadAll]

/-- The `.env` files that `newConfig` loads, in the order in which it loads
them. -/
theorem loadEnv_eq_fold (w : World) (paths : List String) :
    newConfig.loadEnv w paths =
      (".env" :: ((paths.map (fun d => w.filepathJoin d ".env")).filter w.stat)).foldl
        (fun env file => (godotenv.loadFile w env file).1) w.environ := by
  have gen : ∀ (ps : List String) (e : Environ),
      ps.foldl (fun env path =>
          if w.stat (w.filepathJoin path ".env") then
            (godotenv.loadFile w env (w.filepathJoin path ".env")).1 else env) e =
        ((ps.map (fun d => w.filepathJoin d ".env")).filter w.stat).foldl
          (fun env file => (godotenv.loadFile w env file).1) e := by
    intro ps
    induction ps with
    | nil => intro e; rfl
    | cons d rest ih =>
      intro e
      simp only [List.foldl_cons, List.map_cons, List.filter_cons]
      by_cases hs : w.stat (w.filepathJoin d ".env") = true
      · simp only [hs, ↓reduceIte, List.foldl_cons]
        exact ih _
      · simp only [hs, Bool.false_eq_true, ↓reduceIte]
        exact ih _
  unfold newConfig.loadEnv
  simp only [List.foldl_cons, Load_default, Load_one]
  exact gen paths _

theorem fold_loadFile_apply (w : World) (name : String) : ∀ (files : List String) (env : Environ),
    (files.foldl (fun env file => (godotenv.loadFile w env file).1) env) name =
      match env name with
      | some v => some v
      | none => files.findSome? (fun file => (w.readEnvFile file).bind (fun m => m name)) := by
  intro files
  induction files with
  | nil => intro env; cases he : env name <;> simp [he]
  | cons file rest ih =>
    intro env
    simp only [List.foldl_cons]
    rw [ih, loadFile_apply]
    cases he : env name with
    | some v => rfl
    | none =>
      cases hf : (w.readEnvFile file).bind (fun m => m name) with
      | none => simp [List.findSome?_cons, hf]
      | some v => simp [List.findSome?_cons, hf]

theorem newConfig_environ_eq (w : World) (paths : List String) :
    (newConfig w paths).environ = newConfig.loadEnv w paths := by
  unfold newConfig
  simp only
  split
  · rfl
  · split <;> rfl

/-- C3: when no candidate directory holds a config file that can be read and
decoded, `newConfig` returns an error that wraps the error of `ReadInConfig`
under the message `config.NewConfig: failed to read config file: ` followed by
the message of that error, together with the zero `Config`, whatever the
environment and the `.env` files hold. -/
theorem newConfig_read_error (w : World) (paths : List String)
    (hnone : ∀ d ∈ paths, ∀ file, w.searchInPath (w.absPathify d) = some file →
      ∃ e, w.readConfig file = .error e) :
    ∃ cause outer, ((newConfig.viper w paths).ReadInConfig w).2 = some cause ∧
      (newConfig w paths).err = some outer ∧
      outer.Error = "config.NewConfig: failed to read config file: " ++ cause.Error ∧
      outer.Unwrap = some cause ∧
      (newConfig w paths).conf = {} := by
  obtain ⟨hty, -, -, -, -, hpaths⟩ := viper_fields w paths
  have hread : ∃ cause v1, (newConfig.viper w paths).ReadInConfig w = (v1, some cause) := by
    unfold Viper.ReadInConfig
    cases hf : (newConfig.viper w paths).findConfigFile w with
    | error e => exact ⟨e, _, rfl⟩
    | ok file =>
      have hfound : ∃ p ∈ (newConfig.viper w paths).configPaths, w.searchInPath p = some file := by
        unfold Viper.findConfigFile at hf
        cases hs : (newConfig.viper w paths).configPaths.findSome? w.searchInPath with
        | none => rw [hs] at hf; cases hf
        | some f =>
          rw [hs] at hf
          cases hf
          exact List.exists_of_findSome?_eq_some hs
      obtain ⟨p, hp, hsp⟩ := hfound
      obtain ⟨d, hd, rfl⟩ := hpaths p hp
      obtain ⟨e, he⟩ := hnone d hd file hsp
      simp only [hty]
      rw [if_neg (by decide)]
      simp only [he]
      exact ⟨e, _, rfl⟩
  obtain ⟨cause, v1, hr⟩ := hread
  refine ⟨cause, fmt.Errorf_w "config.NewConfig: failed to read config file: " cause,
    by rw [hr], ?_, rfl, rfl, ?_⟩
  · simp [newConfig, hr]
  · simp [newConfig, hr]

/-- C3, on the machine without any config file and on the machine whose config
file is malformed. -/
theorem newConfig_read_error_witness :
    (∀ d ∈ [".", "configs"], ∀ file, bareWorld.searchInPath (bareWorld.absPathify d) = some file →
      ∃ e, bareWorld.readConfig file = .error e) ∧
    (∃ cause outer,
      ((newConfig.viper bareWorld [".", "configs"]).ReadInConfig bareWorld).2 = some cause ∧
      (newConfig bareWorld [".", "configs"]).err = some outer ∧
      outer.Error = "config.NewConfig: failed to read config file: " ++ cause.Error ∧
      outer.Unwrap = some cause ∧
      (newConfig bareWorld [".", "configs"]).conf = {}) ∧
    malformedWorld.searchInPath (malformedWorld.absPathify "configs")
      = some "/srv/app/configs/config.yaml" ∧
    (∃ cause outer,
      ((newConfig.viper malformedWorld [".", "configs"]).ReadInConfig malformedWorld).2
        = some cause ∧
      (newConfig malformedWorld [".", "configs"]).err = some outer ∧
      outer.Error = "config.NewConfig: failed to read config file: " ++ cause.Error ∧
      outer.Unwrap = some cause ∧
      (newConfig malformedWorld [".", "configs"]).conf = {}) :=
  have h : ∀ d ∈ [".", "configs"], ∀ file,
      bareWorld.searchInPath (bareWorld.absPathify d) = some file →
      ∃ e, bareWorld.readConfig file = .error e := by
    intro d _ file hf
    simp [bareWorld] at hf
  have h2 : ∀ d ∈ [".", "configs"], ∀ file,
      malformedWorld.searchInPath (malformedWorld.absPathify d) = some file →
      ∃ e, malformedWorld.readConfig file = .error e :=
    fun _ _ _ _ => ⟨_, rfl⟩
  ⟨h, newConfig_read_error bareWorld [".", "configs"] h, by decide,
    newConfig_read_error malformedWorld [".", "configs"] h2⟩

/-- C8 as stated fails: `APP_REGION` is absent from the process environment and
defined both in the `.env` of the working directory and in the `.env` of the
candidate directory `configs`, and it ends with the value of the working
directory, not with that of the candidate directory. -/
theorem candidate_env_file_does_not_win :
    exampleWorld.environ "APP_REGION" = none ∧
    exampleWorld.stat (exampleWorld.filepathJoin "configs" ".env") = true ∧
    (exampleWorld.readEnvFile (exampleWorld.filepathJoin "configs" ".env")).bind
      (fun m => m "APP_REGION") = some "cand" ∧
    (exampleWorld.readEnvFile ".env").bind (fun m => m "APP_REGION") = some "base" ∧
    (newConfig exampleWorld ["configs"]).environ "APP_REGION" = some "base" ∧
    (newConfig exampleWorld ["configs"]).environ "APP_REGION" ≠ some "cand" := by
  refine ⟨by decide, by decide, by decide, by decide, by decide, by decide⟩

/-- C8, amended: `newConfig` loads the `.env` of the working directory first and
then the `.env` of each candidate directory that has one, in list order, never
overwriting a variable that is set; so a variable keeps its value from the
process environment, and one absent from it gets the value of the first of these
files that parses and defines it: the working directory's, when that defines
it. -/
theorem dotenv_precedence (w : World) (paths : List String) (name : String) :
    (newConfig w paths).environ name =
      (match w.environ name with
       | some v => some v
       | none =>
         (".env" :: ((paths.map (fun d => w.filepathJoin d ".env")).filter w.stat)).findSome?
           (fun file => (w.readEnvFile file).bind (fun m => m name))) ∧
    (∀ m value, w.environ name = none → w.readEnvFile ".env" = some m → m name = some value →
      (newConfig w paths).environ name = some value) := by
  have h1 : (newConfig w paths).environ name =
      (match w.environ name with
       | some v => some v
       | none =>
         (".env" :: ((paths.map (fun d => w.filepathJoin d ".env")).filter w.stat)).findSome?
           (fun file => (w.readEnvFile file).bind (fun m => m name))) := by
    rw [newConfig_environ_eq, loadEnv_eq_fold, fold_loadFile_apply]
  refine ⟨h1, ?_⟩
  intro m value hnone hread hdef
  rw [h1, hnone]
  simp [List.findSome?_cons, hread, hdef]

end config

namespace config

open mapstructure viper

end config

namespace config

open mapstructure viper

end config

namespace config

open mapstructure viper

/-- C9: the field `Postgresql.Slave` carries no `mapstructure` tag, because the
key of its tag is misspelt `mapstruture`; every other field of the settings
carries one.  The decoder therefore looks `Slave` up under the Go name of the
field and finds the key `slave` only through its case-insensitive search, which
takes the first matching key that the iteration over the map meets: with a
section spelt with the long s next to `slave`, the field is filled from either
of the two, depending on the order, while `Master` is always filled from
`master`. -/
theorem Slave_tag_misspelt :
    tags.Postgresql_Slave.Tag = [("mapstruture", "slave")] ∧
    tags.Postgresql_Slave.TagGet "mapstructure" = "" ∧
    (∀ f ∈ tags.all, f ≠ tags.Postgresql_Slave → f.TagGet "mapstructure" ≠ "") ∧
    fieldName tags.Postgresql_Master = "master" ∧
    fieldName tags.Postgresql_Slave = "Slave" ∧
    (newConfig (foldWorld true) ["configs"]).conf.Connection.Postgresql.Master.Host = "db-master" ∧
    (newConfig (foldWorld true) ["configs"]).conf.Connection.Postgresql.Slave.Host = "elsewhere" ∧
    (newConfig (foldWorld false) ["configs"]).conf.Connection.Postgresql.Master.Host = "db-master" ∧
    (newConfig (foldWorld false) ["configs"]).conf.Connection.Postgresql.Slave.Host = "db-slave" := by
  refine ⟨by rfl, by decide, by decide, by decide, by decide, by decide, by decide, by decide,
    by decide⟩

/-- A variable whose text does not convert to the kind of the field does not
reach the settings either: with `CONNECTION_HTTP_TIMEOUT=soon` the timeout stays
zero, not the 30 of the document, and `newConfig` returns the error of the
decoder for the field, wrapped. -/
theorem unconvertible_variable_is_an_error :
    plainKeys exampleDocument = true ∧
    unconvertibleWorld.environ (envName unconvertibleWorld ["connection", "http", "timeout"])
      = some "soon" ∧
    envScalar unconvertibleWorld.ParseInt Kind.int "soon" = none ∧
    definesKey exampleDocument ["connection", "http", "timeout"] = true ∧
    (newConfig unconvertibleWorld [".", "configs"]).conf.get ["connection", "http", "timeout"]
      = some (Scalar.int 0) ∧
    (newConfig unconvertibleWorld [".", "configs"]).err =
      some (fmt.Errorf_w "config.NewConfig: failed to unmarshal config: "
        (unconvertibleWorld.decodeError ["connection.http.timeout"])) := by
  refine ⟨by decide, by decide, by decide, by decide, by decide, by rfl⟩

/-- Next to a section spelt with the long s that the iteration meets first, the
variable of a key under `slave` does not reach the settings: the field `Slave`
is filled from the other section. -/
theorem clashing_section_hides_variable :
    newConfig.document clashWorld ["configs"] = some clashDocument ∧
    plainKeys clashDocument = true ∧
    slaveKeysOf clashDocument = [longS ++ "lave", "slave"] ∧
    slaveSectionsAgree clashWorld clashDocument
      ["connection", "postgresql", "slave", "host"] = false ∧
    definesKey clashDocument ["connection", "postgresql", "slave", "host"] = true ∧
    (newConfig clashWorld ["configs"]).environ
      (envName clashWorld ["connection", "postgresql", "slave", "host"])
      = some "replica.internal" ∧
    (newConfig clashWorld ["configs"]).conf.get ["connection", "postgresql", "slave", "host"]
      = some (Scalar.str "") ∧
    (newConfig clashWorld ["configs"]).conf.get ["connection", "postgresql", "slave", "port"]
      = some (Scalar.str "6432") := by
  refine ⟨by rfl, by decide, by decide, by decide, by decide, by decide, by decide, by decide⟩

end config

end MyApp
